import Mathlib

/-!
Formal model of `src/Src/network_protocols_simulation.py` (class `SelectiveRepeatARQ`).

Modeling conventions, fixed once for the whole file:

* Python machine state becomes the explicit record `SRPState`; every method of the
  class becomes a pure function on that record.
* Randomness: each evaluation of `random.random() > self.p_loss` is one draw from a
  boolean oracle `O : Nat → Bool` (`true` = the unit is delivered); the state carries
  the count `rng` of draws consumed so far.  A run with loss probability 0 is modeled
  by the constantly-true oracle.
* Time: every `time.time()` call inside one iteration of the main loop returns the
  same value, taken from a schedule `sched : Nat → ℚ` indexed by the iteration
  counter; `simulation_start` is `sched 0`.  Durations are exact rationals
  (`0.8 = 4/5`, `1.4 = 7/5`, `3.5 = 7/2`, the 25 s budget is `25`).
* Python dicts (`packet_timers`, `packet_retries`) become insertion-ordered
  association lists (`dictLookup`/`dictSet`/`dictDel` below), matching the
  iteration order of `dict.items()` used by `_check_timeouts`.
* `receiver_window` is a dict whose values are always `True` and which is only ever
  tested for membership and deleted from, so it is modeled as a `Finset ℕ`;
  `ack_received` is a Python `set`, also a `Finset ℕ`.
* The two `Queue`s are FIFO lists of sequence numbers.  The `is_ack` field of a
  queued record is `False` on `data_channel` and `True` on `ack_channel` without
  exception, and `send_time` is written but never read, so both fields are dropped.
  The `get(timeout=...)`/`Empty` retrieval becomes "pop the head if any".
* The `while` loops inside methods become structural recursions: the send loop of
  `_transmit_new_packets` iterates over the index range it traverses (sound because
  `transmit_packet` changes neither `base_seq` nor `next_seq_num`), the delivery
  drain and the window slide become the recursive `drain` and `slideBase`, which
  also return what they delivered/how far they moved.
* The main `while` loop of `execute_protocol` is unrolled by a step count: `traceP`
  gives the state after `k` guarded iterations (iterations after the guard has
  failed leave the state unchanged), together with the list of sequence numbers the
  receiver has delivered in order.
-/

/-- Lookup in an insertion-ordered association list (Python `d[k]` / `d.get(k)`). -/
def dictLookup {α : Type} (l : List (Nat × α)) (k : Nat) : Option α :=
  match l with
  | [] => none
  | (k', v) :: rest => if k' = k then some v else dictLookup rest k

/-- Write `d[k] = v`: replace the first binding of `k` in place, else append. -/
def dictSet {α : Type} (l : List (Nat × α)) (k : Nat) (v : α) : List (Nat × α) :=
  match l with
  | [] => [(k, v)]
  | (k', v') :: rest => if k' = k then (k, v) :: rest else (k', v') :: dictSet rest k v

/-- Delete `del d[k]`: remove the bindings of `k`, keeping the order of the rest. -/
def dictDel {α : Type} (l : List (Nat × α)) (k : Nat) : List (Nat × α) :=
  l.filter (fun p => p.1 != k)

/-- Configuration handed to `SelectiveRepeatARQ.__init__`: `window_size` and
`total_packets`.  The loss probability is absorbed into the oracle. -/
structure Cfg where
  N : Nat
  total_packets : Nat
deriving DecidableEq

/-- `self.BASE_TIMEOUT = 0.8`. -/
def BASE_TIMEOUT : ℚ := 4/5

/-- `self.STALL_LIMIT = 3.5`. -/
def STALL_LIMIT : ℚ := 7/2

/-- The mutable state of a `SelectiveRepeatARQ` object (fields in `__init__` order;
`simulation_start` lives in the schedule as `sched 0`, and `rng` counts the random
draws consumed so far). -/
structure SRPState where
  base_seq : Nat
  next_seq_num : Nat
  packet_timers : List (Nat × ℚ)
  ack_received : Finset Nat
  transmission_count : Nat
  last_ack_time : ℚ
  packet_retries : List (Nat × Nat)
  expected_seq : Nat
  receiver_window : Finset Nat
  data_channel : List Nat
  ack_channel : List Nat
  finished : Bool
  rng : Nat
deriving DecidableEq

/-- The state right after `__init__` (all counters zero, all containers empty). -/
def initState : SRPState :=
  { base_seq := 0, next_seq_num := 0, packet_timers := [], ack_received := ∅,
    transmission_count := 0, last_ack_time := 0, packet_retries := [],
    expected_seq := 0, receiver_window := ∅, data_channel := [], ack_channel := [],
    finished := false, rng := 0 }

/-- `transmit_packet`: count the attempt, bump the retry counter, then draw; on
delivery enqueue the packet and start/refresh its timer, returning `True`; on loss
return `False` with no timer touched. -/
def transmit_packet (O : Nat → Bool) (now : ℚ) (seq_num : Nat) (s : SRPState) :
    SRPState × Bool :=
  let s := { s with transmission_count := s.transmission_count + 1 }
  let retries :=
    if (dictLookup s.packet_retries seq_num).isSome then s.packet_retries
    else dictSet s.packet_retries seq_num 0
  let retries := dictSet retries seq_num ((dictLookup retries seq_num).getD 0 + 1)
  let s := { s with packet_retries := retries }
  let deliver := O s.rng
  let s := { s with rng := s.rng + 1 }
  if deliver then
    ({ s with data_channel := s.data_channel ++ [seq_num],
              packet_timers := dictSet s.packet_timers seq_num now }, true)
  else (s, false)

/-- `send_acknowledgment`: draw; on delivery enqueue the ACK. -/
def send_acknowledgment (O : Nat → Bool) (seq_num : Nat) (s : SRPState) : SRPState :=
  let deliver := O s.rng
  let s := { s with rng := s.rng + 1 }
  if deliver then { s with ack_channel := s.ack_channel ++ [seq_num] } else s

/-- `calculate_timeout`: `BASE_TIMEOUT * 1.4 ** min(retry_count, 5)` with
`retry_count = packet_retries.get(seq, 0)`. -/
def calculate_timeout (packet_retries : List (Nat × Nat)) (seq_num : Nat) : ℚ :=
  BASE_TIMEOUT * (7/5) ^ min ((dictLookup packet_retries seq_num).getD 0) 5

/-- One pass of the send loop of `_transmit_new_packets` at `q = next_seq_num`:
skip `q` if already acknowledged, else transmit it and count a delivery; either way
advance `next_seq_num`. -/
def tnpStep (O : Nat → Bool) (now : ℚ) (p : SRPState × Nat) (q : Nat) : SRPState × Nat :=
  if q ∈ p.1.ack_received then ({ p.1 with next_seq_num := q + 1 }, p.2)
  else
    let r := transmit_packet O now q p.1
    ({ r.1 with next_seq_num := q + 1 }, if r.2 then p.2 + 1 else p.2)

/-- The send loop of `_transmit_new_packets`: `while next_seq_num < base_seq + N and
next_seq_num < total_packets`, skip already-acknowledged numbers, transmit the rest,
count deliveries in `sent`.  The loop body leaves `base_seq` unchanged, so the
sequence of values taken by `next_seq_num` is the range precomputed here. -/
def _transmit_new_packets (cfg : Cfg) (O : Nat → Bool) (now : ℚ) (s : SRPState) :
    SRPState × Nat :=
  (List.range' s.next_seq_num (min (s.base_seq + cfg.N) cfg.total_packets - s.next_seq_num)).foldl
    (tnpStep O now) (s, 0)

/-- The delivery drain of `_handle_data_reception` with an explicit iteration
bound: each pass of `while expected_seq in receiver_window` removes one buffer
element, so `receiver_window.card` passes always reach the exit condition. -/
def drainGo : Nat → Nat → Finset Nat → Nat × Finset Nat × List Nat
  | 0, e, w => (e, w, [])
  | fuel + 1, e, w =>
    if e ∈ w then
      let r := drainGo fuel (e + 1) (w.erase e)
      (r.1, r.2.1, e :: r.2.2)
    else (e, w, [])

/-- The delivery drain of `_handle_data_reception`: `while expected_seq in
receiver_window: del ...; expected_seq += 1`.  Returns the new `expected_seq`, the
new buffer, and the delivered sequence numbers in delivery order. -/
def drain (e : Nat) (w : Finset Nat) : Nat × Finset Nat × List Nat :=
  drainGo w.card e w

/-- `_handle_data_reception`: pop one data packet if available (the popped record
always has `is_ack == False`); accept it into the buffer and acknowledge it when it
is inside `[expected_seq, min(expected_seq + N - 1, total_packets - 1)]` and not yet
buffered, then drain; re-acknowledge it when it is older than the window; ignore it
otherwise.  Window bounds are computed in ℤ exactly as Python computes them.
Also returns the list of sequence numbers delivered by the drain. -/
def _handle_data_reception (cfg : Cfg) (O : Nat → Bool) (s : SRPState) :
    SRPState × List Nat :=
  match s.data_channel with
  | [] => (s, [])
  | seq :: rest =>
    let s := { s with data_channel := rest }
    if (s.expected_seq : ℤ) ≤ seq ∧
        (seq : ℤ) ≤ min ((s.expected_seq : ℤ) + cfg.N - 1) ((cfg.total_packets : ℤ) - 1) then
      let s :=
        if seq ∈ s.receiver_window then s
        else send_acknowledgment O seq { s with receiver_window := insert seq s.receiver_window }
      let r := drain s.expected_seq s.receiver_window
      ({ s with expected_seq := r.1, receiver_window := r.2.1 }, r.2.2)
    else if (seq : ℤ) < (s.expected_seq : ℤ) then
      (send_acknowledgment O seq s, [])
    else (s, [])

/-- The window slide of `_process_acknowledgments` with an explicit iteration
bound: while `base_seq ∈ ack_received` we have `base_seq ≤ ack_received.sup id`,
so `ack_received.sup id + 1 - base_seq` passes always reach the exit condition. -/
def slideGo : Nat → Nat → Finset Nat → Nat
  | 0, b, _ => b
  | fuel + 1, b, acked => if b ∈ acked then slideGo fuel (b + 1) acked else b

/-- The window slide of `_process_acknowledgments`: `while base_seq in ack_received:
base_seq += 1`.  Returns the new `base_seq`. -/
def slideBase (b : Nat) (acked : Finset Nat) : Nat :=
  slideGo (acked.sup id + 1 - b) b acked

/-- `_process_acknowledgments`: pop one ACK if available (it always has
`is_ack == True`); record it, delete its timer and retry counter, then slide the
window base; `last_ack_time` is refreshed whenever the base moved. -/
def _process_acknowledgments (now : ℚ) (s : SRPState) : SRPState :=
  match s.ack_channel with
  | [] => s
  | seq :: rest =>
    let s := { s with ack_channel := rest,
                      ack_received := insert seq s.ack_received,
                      packet_timers := dictDel s.packet_timers seq,
                      packet_retries := dictDel s.packet_retries seq }
    let b' := slideBase s.base_seq s.ack_received
    { s with base_seq := b',
             last_ack_time := if b' = s.base_seq then s.last_ack_time else now }

/-- `_check_timeouts`: collect the timers whose elapsed time exceeds the adaptive
timeout (from a snapshot of `packet_timers.items()`, in insertion order), then
retransmit every expired, still-unacknowledged, in-range packet and restart its
timer unconditionally.  `ctoStep` is the body of the retransmission loop. -/
def ctoStep (cfg : Cfg) (O : Nat → Bool) (now : ℚ) (s : SRPState) (seq : Nat) : SRPState :=
  if seq ∉ s.ack_received ∧ seq < cfg.total_packets then
    let r := transmit_packet O now seq s
    { r.1 with packet_timers := dictSet r.1.packet_timers seq now }
  else s

/-- See `ctoStep`: snapshot the expired timers, then run the retransmission loop. -/
def _check_timeouts (cfg : Cfg) (O : Nat → Bool) (now : ℚ) (s : SRPState) : SRPState :=
  let expired :=
    (s.packet_timers.filter
      (fun p => decide (now - p.2 > calculate_timeout s.packet_retries p.1))).map Prod.fst
  expired.foldl (ctoStep cfg O now) s

/-- Body of the retransmission loop of `_recover_from_stall`. -/
def stallStep (O : Nat → Bool) (now : ℚ) (s : SRPState) (q : Nat) : SRPState :=
  if q ∈ s.ack_received then s else (transmit_packet O now q s).1

/-- `_recover_from_stall`: reset `next_seq_num` to `base_seq`, then retransmit every
not-yet-acknowledged sequence number in `range(base_seq, min(base_seq + N,
total_packets))`. -/
def _recover_from_stall (cfg : Cfg) (O : Nat → Bool) (now : ℚ) (s : SRPState) : SRPState :=
  let s := { s with next_seq_num := s.base_seq }
  (List.range' s.base_seq (min (s.base_seq + cfg.N) cfg.total_packets - s.base_seq)).foldl
    (stallStep O now) s

/-- One iteration of the body of the main loop of `execute_protocol`, at current
time `now`: stall check and recovery, send new packets (refreshing
`last_ack_time` when anything was sent), receive one data packet, process one ACK,
check timeouts.  Also returns what the receiver delivered this iteration. -/
def tick (cfg : Cfg) (O : Nat → Bool) (now : ℚ) (s : SRPState) : SRPState × List Nat :=
  let s :=
    if now - s.last_ack_time > STALL_LIMIT then
      { _recover_from_stall cfg O now s with last_ack_time := now }
    else s
  let p := _transmit_new_packets cfg O now s
  let s := if 0 < p.2 then { p.1 with last_ack_time := now } else p.1
  let r := _handle_data_reception cfg O s
  let s := _process_acknowledgments now r.1
  let s := _check_timeouts cfg O now s
  (s, r.2)

/-- The loop guard of `execute_protocol` at iteration `k`:
`base_seq < total_packets and time.time() - simulation_start < 25`. -/
def loopGuard (cfg : Cfg) (sched : Nat → ℚ) (k : Nat) (s : SRPState) : Prop :=
  s.base_seq < cfg.total_packets ∧ sched k - sched 0 < 25

instance (cfg : Cfg) (sched : Nat → ℚ) (k : Nat) (s : SRPState) :
    Decidable (loopGuard cfg sched k s) :=
  inferInstanceAs (Decidable (s.base_seq < cfg.total_packets ∧ sched k - sched 0 < 25))

/-- State after `k` guarded iterations of the main loop, starting from the freshly
initialized object with `last_ack_time = simulation_start = sched 0`, paired with
everything delivered so far.  Once the guard fails the state no longer changes, so
for any large enough `k` this is the state in which the loop exits. -/
def traceP (cfg : Cfg) (O : Nat → Bool) (sched : Nat → ℚ) : Nat → SRPState × List Nat
  | 0 => ({ initState with last_ack_time := sched 0 }, [])
  | k + 1 =>
    let p := traceP cfg O sched k
    if loopGuard cfg sched k p.1 then
      let r := tick cfg O (sched k) p.1
      (r.1, p.2 ++ r.2)
    else p

/-- The protocol state after `k` guarded loop iterations. -/
def trace (cfg : Cfg) (O : Nat → Bool) (sched : Nat → ℚ) (k : Nat) : SRPState :=
  (traceP cfg O sched k).1

/-- All sequence numbers the receiver has delivered, in order, during the first `k`
guarded loop iterations. -/
def traceLog (cfg : Cfg) (O : Nat → Bool) (sched : Nat → ℚ) (k : Nat) : List Nat :=
  (traceP cfg O sched k).2

/-- `execute_protocol`, run for `fuel` loop iterations (enough fuel means the guard
has failed and the extra iterations are no-ops): set
`finished = (base_seq >= total_packets)` and return `base_seq`. -/
def execute_protocol (cfg : Cfg) (O : Nat → Bool) (sched : Nat → ℚ) (fuel : Nat) :
    SRPState × Nat :=
  let s := trace cfg O sched fuel
  let s := { s with finished := decide (cfg.total_packets ≤ s.base_seq) }
  (s, s.base_seq)

/-- Iteration index at which sequence number `q` is first transmitted in a
loss-free run: packets `0 .. N-1` go out in iteration 0, and from then on one new
packet per iteration (`q + 1 - N` with truncated subtraction). -/
def sendTick (N q : Nat) : Nat := q + 1 - N

/-- Closed form of the protocol state at the start of loop iteration `b` of a
loss-free run (constant-true oracle), for `1 ≤ b ≤ total_packets`: the window base,
the receiver expectation and the iteration count coincide at `b`; packets
`b .. min (b - 1 + N) total_packets - 1` are in flight with one transmission each;
everything below `b` is delivered and acknowledged; both channels hold no
acknowledgments and the data channel holds exactly the in-flight packets in order.
-/
def stateB (cfg : Cfg) (sched : Nat → ℚ) (b : Nat) : SRPState :=
  { base_seq := b,
    next_seq_num := min (b - 1 + cfg.N) cfg.total_packets,
    packet_timers := (List.range' b (min (b - 1 + cfg.N) cfg.total_packets - b)).map
      (fun q => (q, sched (sendTick cfg.N q))),
    ack_received := Finset.range b,
    transmission_count := min (b - 1 + cfg.N) cfg.total_packets,
    last_ack_time := sched (b - 1),
    packet_retries := (List.range' b (min (b - 1 + cfg.N) cfg.total_packets - b)).map
      (fun q => (q, 1)),
    expected_seq := b,
    receiver_window := ∅,
    data_channel := List.range' b (min (b - 1 + cfg.N) cfg.total_packets - b),
    ack_channel := [],
    finished := false,
    rng := min (b - 1 + cfg.N) cfg.total_packets + b }

/-- Inductive invariant of the protocol state, preserved by every loop iteration:
window arithmetic (`base_seq ≤ next_seq_num ≤ base_seq + N`, both at most
`total_packets`), every sequence number in flight or remembered on the sender side
is below `base_seq + N` and below `total_packets`, the receiver buffer lies inside
`[expected_seq, expected_seq + N - 1]` with `expected_seq` itself not buffered, the
window base never passes the receiver (`base_seq ≤ expected_seq`), and every
acknowledged or in-flight-acknowledgment number has been seen by the receiver
(delivered, hence below `expected_seq`, or still buffered). -/
structure ProtInv (cfg : Cfg) (s : SRPState) : Prop where
  base_le_next : s.base_seq ≤ s.next_seq_num
  next_le_window : s.next_seq_num ≤ s.base_seq + cfg.N
  next_le_total : s.next_seq_num ≤ cfg.total_packets
  acked_bound : ∀ q ∈ s.ack_received, q < s.base_seq + cfg.N ∧ q < cfg.total_packets
  ackch_bound : ∀ q ∈ s.ack_channel, q < s.base_seq + cfg.N ∧ q < cfg.total_packets
  datach_bound : ∀ q ∈ s.data_channel, q < s.base_seq + cfg.N ∧ q < cfg.total_packets
  timers_bound : ∀ p ∈ s.packet_timers,
    p.1 < s.base_seq + cfg.N ∧ p.1 < cfg.total_packets
  base_le_expected : s.base_seq ≤ s.expected_seq
  expected_not_buffered : s.expected_seq ∉ s.receiver_window
  buffer_in_window : ∀ q ∈ s.receiver_window,
    s.expected_seq ≤ q ∧ (q : ℤ) ≤ (s.expected_seq : ℤ) + cfg.N - 1
  acked_seen : ∀ q ∈ s.ack_received, q < s.expected_seq ∨ q ∈ s.receiver_window
  ackch_seen : ∀ q ∈ s.ack_channel, q < s.expected_seq ∨ q ∈ s.receiver_window


/-! ### Association-list (Python dict) lemmas -/

theorem dictLookup_dictSet_self {α : Type} (l : List (Nat × α)) (k : Nat) (v : α) :
    dictLookup (dictSet l k v) k = some v := by
  induction l with
  | nil => simp [dictSet, dictLookup]
  | cons p rest ih =>
    obtain ⟨a, b⟩ := p
    by_cases h : a = k <;> simp [dictSet, dictLookup, h, ih]

theorem dictLookup_dictSet_ne {α : Type} (l : List (Nat × α)) {k k' : Nat} (v : α)
    (h : k' ≠ k) : dictLookup (dictSet l k v) k' = dictLookup l k' := by
  have hk : ¬ k = k' := fun hh => h hh.symm
  induction l with
  | nil => simp [dictSet, dictLookup, hk]
  | cons p rest ih =>
    obtain ⟨a, b⟩ := p
    by_cases ha : a = k
    · subst ha
      simp [dictSet, dictLookup, hk]
    · simp [dictSet, dictLookup, ha, ih]

theorem dictDel_cons_self {α : Type} (a : Nat) (b : α) (rest : List (Nat × α)) :
    dictDel ((a, b) :: rest) a = dictDel rest a := by
  simp [dictDel, List.filter_cons]

theorem dictDel_cons_ne {α : Type} {a k : Nat} (b : α) (rest : List (Nat × α))
    (h : a ≠ k) : dictDel ((a, b) :: rest) k = (a, b) :: dictDel rest k := by
  simp [dictDel, List.filter_cons, h]

theorem dictLookup_dictDel_self {α : Type} (l : List (Nat × α)) (k : Nat) :
    dictLookup (dictDel l k) k = none := by
  induction l with
  | nil => simp [dictDel, dictLookup]
  | cons p rest ih =>
    obtain ⟨a, b⟩ := p
    by_cases h : a = k
    · subst h; rw [dictDel_cons_self]; exact ih
    · rw [dictDel_cons_ne b rest h]; simp [dictLookup, h, ih]

theorem dictLookup_dictDel_ne {α : Type} (l : List (Nat × α)) {k k' : Nat}
    (h : k' ≠ k) : dictLookup (dictDel l k) k' = dictLookup l k' := by
  induction l with
  | nil => simp [dictDel, dictLookup]
  | cons p rest ih =>
    obtain ⟨a, b⟩ := p
    by_cases ha : a = k
    · subst ha
      rw [dictDel_cons_self]
      have : ¬ a = k' := fun hh => h hh.symm
      simp [dictLookup, this, ih]
    · rw [dictDel_cons_ne b rest ha]; simp [dictLookup, ih]

theorem dictSet_dictSet {α : Type} (l : List (Nat × α)) (k : Nat) (v v' : α) :
    dictSet (dictSet l k v) k v' = dictSet l k v' := by
  induction l with
  | nil => simp [dictSet]
  | cons p rest ih =>
    obtain ⟨a, b⟩ := p
    by_cases h : a = k <;> simp [dictSet, h, ih]

theorem dictSet_append_of_fresh {α : Type} (l : List (Nat × α)) (k : Nat) (v : α)
    (h : ∀ p ∈ l, p.1 ≠ k) : dictSet l k v = l ++ [(k, v)] := by
  induction l with
  | nil => simp [dictSet]
  | cons p rest ih =>
    obtain ⟨a, b⟩ := p
    have ha : a ≠ k := h (a, b) (by simp)
    simp [dictSet, ha]
    exact ih fun p hp => h p (by simp [hp])

theorem dictDel_of_fresh {α : Type} (l : List (Nat × α)) (k : Nat)
    (h : ∀ p ∈ l, p.1 ≠ k) : dictDel l k = l := by
  induction l with
  | nil => simp [dictDel]
  | cons p rest ih =>
    obtain ⟨a, b⟩ := p
    have ha : a ≠ k := h (a, b) (by simp)
    simp [dictDel, List.filter_cons, ha]
    simpa [dictDel] using ih fun p hp => h p (by simp [hp])

theorem mem_dictSet {α : Type} {l : List (Nat × α)} {k : Nat} {v : α} {p : Nat × α}
    (hp : p ∈ dictSet l k v) : p = (k, v) ∨ p ∈ l := by
  induction l with
  | nil => simpa [dictSet] using hp
  | cons q rest ih =>
    obtain ⟨a, b⟩ := q
    by_cases h : a = k
    · rcases (by simpa [dictSet, h] using hp : p = (k, v) ∨ p ∈ rest) with h1 | h1
      · exact Or.inl h1
      · exact Or.inr (by simp [h1])
    · rcases (by simpa [dictSet, h] using hp : p = (a, b) ∨ p ∈ dictSet rest k v) with h1 | h1
      · exact Or.inr (by simp [h1])
      · rcases ih h1 with h2 | h2
        · exact Or.inl h2
        · exact Or.inr (by simp [h2])

theorem mem_dictDel {α : Type} {l : List (Nat × α)} {k : Nat} {p : Nat × α}
    (hp : p ∈ dictDel l k) : p ∈ l := (List.mem_filter.1 hp).1

theorem dictLookup_none_fresh {α : Type} :
    ∀ (l : List (Nat × α)) (k : Nat), dictLookup l k = none →
      ∀ p ∈ l, p.1 ≠ k := by
  intro l k
  induction l with
  | nil => intro _ p hp; cases hp
  | cons r rest ih =>
    obtain ⟨k', v'⟩ := r
    intro h p hp
    by_cases hk : k' = k
    · simp [dictLookup, hk] at h
    · rcases List.mem_cons.1 hp with rfl | hp2
      · exact hk
      · exact ih (by simpa [dictLookup, hk] using h) p hp2

/-! ### Specifications of the `drain` and `slideBase` loops -/

theorem drainGo_spec : ∀ (fuel e : Nat) (w : Finset Nat), w.card ≤ fuel →
    e ≤ (drainGo fuel e w).1 ∧
    (drainGo fuel e w).1 ∉ (drainGo fuel e w).2.1 ∧
    (∀ q, q ∈ (drainGo fuel e w).2.1 ↔ q ∈ w ∧ (q < e ∨ (drainGo fuel e w).1 ≤ q)) ∧
    (drainGo fuel e w).2.2 = List.range' e ((drainGo fuel e w).1 - e) := by
  intro fuel
  induction fuel with
  | zero =>
    intro e w hw
    have hw0 : w = ∅ := Finset.card_eq_zero.1 (Nat.le_zero.1 hw)
    subst hw0
    exact ⟨le_rfl, Finset.not_mem_empty e,
      fun q => ⟨fun hq => absurd hq (Finset.not_mem_empty q),
                fun hq => absurd hq.1 (Finset.not_mem_empty q)⟩, by simp [drainGo]⟩
  | succ fuel ih =>
    intro e w hw
    by_cases h : e ∈ w
    · have hcard : (w.erase e).card ≤ fuel := by
        have := Finset.card_erase_of_mem h
        have := Finset.card_pos.2 ⟨e, h⟩
        omega
      obtain ⟨ih1, ih2, ih3, ih4⟩ := ih (e + 1) (w.erase e) hcard
      simp only [drainGo, if_pos h]
      refine ⟨by omega, ih2, fun q => ?_, ?_⟩
      · rw [ih3 q]
        constructor
        · rintro ⟨hq, hq2⟩
          rcases Finset.mem_erase.1 hq with ⟨hne, hqw⟩
          exact ⟨hqw, by omega⟩
        · rintro ⟨hq, hq2⟩
          by_cases hqe : q = e
          · subst hqe; omega
          · exact ⟨Finset.mem_erase.2 ⟨hqe, hq⟩, by omega⟩
      · rw [ih4]
        have heq : (drainGo fuel (e + 1) (w.erase e)).1 - e
            = ((drainGo fuel (e + 1) (w.erase e)).1 - (e + 1)) + 1 := by
          omega
        rw [heq, List.range'_succ]
    · simp only [drainGo, if_neg h]
      exact ⟨le_rfl, h, fun q => ⟨fun hq => ⟨hq, by omega⟩, fun hq => hq.1⟩, by simp⟩

theorem drain_spec (e : Nat) (w : Finset Nat) :
    e ≤ (drain e w).1 ∧
    (drain e w).1 ∉ (drain e w).2.1 ∧
    (∀ q, q ∈ (drain e w).2.1 ↔ q ∈ w ∧ (q < e ∨ (drain e w).1 ≤ q)) ∧
    (drain e w).2.2 = List.range' e ((drain e w).1 - e) :=
  drainGo_spec w.card e w le_rfl

theorem slideGo_le : ∀ (fuel b : Nat) (A : Finset Nat), b ≤ slideGo fuel b A := by
  intro fuel
  induction fuel with
  | zero => intro b A; exact le_rfl
  | succ fuel ih =>
    intro b A
    by_cases h : b ∈ A
    · simp only [slideGo, if_pos h]
      exact le_trans (by omega) (ih (b + 1) A)
    · simp only [slideGo, if_neg h]
      exact le_rfl

theorem slideGo_exit : ∀ (fuel b : Nat) (A : Finset Nat),
    A.sup id + 1 - b ≤ fuel → slideGo fuel b A ∉ A := by
  intro fuel
  induction fuel with
  | zero =>
    intro b A hf hb
    have hs : id b ≤ A.sup id := Finset.le_sup hb
    simp only [id] at hs
    omega
  | succ fuel ih =>
    intro b A hf
    by_cases h : b ∈ A
    · have hs : id b ≤ A.sup id := Finset.le_sup h
      simp only [id] at hs
      simp only [slideGo, if_pos h]
      exact ih (b + 1) A (by omega)
    · simp only [slideGo, if_neg h]; exact h

theorem slideGo_covered : ∀ (fuel b : Nat) (A : Finset Nat) (m : Nat),
    b ≤ m → m < slideGo fuel b A → m ∈ A := by
  intro fuel
  induction fuel with
  | zero =>
    intro b A m h1 h2
    simp only [slideGo] at h2
    omega
  | succ fuel ih =>
    intro b A m h1 h2
    by_cases h : b ∈ A
    · simp only [slideGo, if_pos h] at h2
      by_cases hmb : m = b
      · subst hmb; exact h
      · exact ih (b + 1) A m (by omega) h2
    · simp only [slideGo, if_neg h] at h2
      omega

theorem slideBase_le (b : Nat) (A : Finset Nat) : b ≤ slideBase b A :=
  slideGo_le _ b A

theorem slideBase_not_mem (b : Nat) (A : Finset Nat) : slideBase b A ∉ A :=
  slideGo_exit _ b A le_rfl

theorem slideBase_covered (b : Nat) (A : Finset Nat) :
    ∀ m, b ≤ m → m < slideBase b A → m ∈ A :=
  fun m h1 h2 => slideGo_covered _ b A m h1 h2

theorem slideBase_le_of {b X : Nat} {A : Finset Nat} (hbX : b ≤ X) (hX : X ∉ A) :
    slideBase b A ≤ X := by
  by_contra hcon
  exact hX (slideBase_covered b A X hbX (by omega))

theorem slideBase_of_not_mem {b : Nat} {A : Finset Nat} (h : b ∉ A) :
    slideBase b A = b := by
  unfold slideBase
  cases hf : A.sup id + 1 - b with
  | zero => rfl
  | succ fuel => simp only [slideGo, if_neg h]


/-! ### Shape of `transmit_packet` and `send_acknowledgment` -/

theorem transmit_packet_eq (O : Nat → Bool) (now : ℚ) (q : Nat) (s : SRPState) :
    transmit_packet O now q s =
      if O s.rng then
        ({ s with
            transmission_count := s.transmission_count + 1,
            packet_retries := dictSet s.packet_retries q
              ((dictLookup s.packet_retries q).getD 0 + 1),
            rng := s.rng + 1,
            data_channel := s.data_channel ++ [q],
            packet_timers := dictSet s.packet_timers q now }, true)
      else
        ({ s with
            transmission_count := s.transmission_count + 1,
            packet_retries := dictSet s.packet_retries q
              ((dictLookup s.packet_retries q).getD 0 + 1),
            rng := s.rng + 1 }, false) := by
  unfold transmit_packet
  by_cases hl : (dictLookup s.packet_retries q).isSome
  · obtain ⟨v, hv⟩ := Option.isSome_iff_exists.1 hl
    simp [hl, hv]
  · have hv : dictLookup s.packet_retries q = none := Option.not_isSome_iff_eq_none.1 hl
    simp [hl, hv, dictLookup_dictSet_self, dictSet_dictSet]

theorem tp_base (O : Nat → Bool) (now : ℚ) (q : Nat) (s : SRPState) :
    (transmit_packet O now q s).1.base_seq = s.base_seq := by
  rw [transmit_packet_eq]; by_cases hO : O s.rng <;> simp [hO]

theorem tp_next (O : Nat → Bool) (now : ℚ) (q : Nat) (s : SRPState) :
    (transmit_packet O now q s).1.next_seq_num = s.next_seq_num := by
  rw [transmit_packet_eq]; by_cases hO : O s.rng <;> simp [hO]

theorem tp_expected (O : Nat → Bool) (now : ℚ) (q : Nat) (s : SRPState) :
    (transmit_packet O now q s).1.expected_seq = s.expected_seq := by
  rw [transmit_packet_eq]; by_cases hO : O s.rng <;> simp [hO]

theorem tp_window (O : Nat → Bool) (now : ℚ) (q : Nat) (s : SRPState) :
    (transmit_packet O now q s).1.receiver_window = s.receiver_window := by
  rw [transmit_packet_eq]; by_cases hO : O s.rng <;> simp [hO]

theorem tp_acked (O : Nat → Bool) (now : ℚ) (q : Nat) (s : SRPState) :
    (transmit_packet O now q s).1.ack_received = s.ack_received := by
  rw [transmit_packet_eq]; by_cases hO : O s.rng <;> simp [hO]

theorem tp_ackch (O : Nat → Bool) (now : ℚ) (q : Nat) (s : SRPState) :
    (transmit_packet O now q s).1.ack_channel = s.ack_channel := by
  rw [transmit_packet_eq]; by_cases hO : O s.rng <;> simp [hO]

theorem tp_last (O : Nat → Bool) (now : ℚ) (q : Nat) (s : SRPState) :
    (transmit_packet O now q s).1.last_ack_time = s.last_ack_time := by
  rw [transmit_packet_eq]; by_cases hO : O s.rng <;> simp [hO]

theorem tp_count (O : Nat → Bool) (now : ℚ) (q : Nat) (s : SRPState) :
    (transmit_packet O now q s).1.transmission_count = s.transmission_count + 1 := by
  rw [transmit_packet_eq]; by_cases hO : O s.rng <;> simp [hO]

theorem tp_rng (O : Nat → Bool) (now : ℚ) (q : Nat) (s : SRPState) :
    (transmit_packet O now q s).1.rng = s.rng + 1 := by
  rw [transmit_packet_eq]; by_cases hO : O s.rng <;> simp [hO]

theorem tp_finished (O : Nat → Bool) (now : ℚ) (q : Nat) (s : SRPState) :
    (transmit_packet O now q s).1.finished = s.finished := by
  rw [transmit_packet_eq]; by_cases hO : O s.rng <;> simp [hO]

theorem tp_snd (O : Nat → Bool) (now : ℚ) (q : Nat) (s : SRPState) :
    (transmit_packet O now q s).2 = O s.rng := by
  rw [transmit_packet_eq]; by_cases hO : O s.rng <;> simp [hO]

theorem tp_data (O : Nat → Bool) (now : ℚ) (q : Nat) (s : SRPState) :
    (transmit_packet O now q s).1.data_channel
      = s.data_channel ++ (if O s.rng then [q] else []) := by
  rw [transmit_packet_eq]; by_cases hO : O s.rng <;> simp [hO]

theorem tp_timers (O : Nat → Bool) (now : ℚ) (q : Nat) (s : SRPState) :
    (transmit_packet O now q s).1.packet_timers
      = if O s.rng then dictSet s.packet_timers q now else s.packet_timers := by
  rw [transmit_packet_eq]; by_cases hO : O s.rng <;> simp [hO]

theorem tp_retries (O : Nat → Bool) (now : ℚ) (q : Nat) (s : SRPState) :
    (transmit_packet O now q s).1.packet_retries
      = dictSet s.packet_retries q ((dictLookup s.packet_retries q).getD 0 + 1) := by
  rw [transmit_packet_eq]; by_cases hO : O s.rng <;> simp [hO]

theorem send_acknowledgment_eq (O : Nat → Bool) (q : Nat) (s : SRPState) :
    send_acknowledgment O q s =
      if O s.rng then
        { s with rng := s.rng + 1, ack_channel := s.ack_channel ++ [q] }
      else { s with rng := s.rng + 1 } := by
  unfold send_acknowledgment
  by_cases hO : O s.rng <;> simp [hO]

theorem sa_fields (O : Nat → Bool) (q : Nat) (s : SRPState) :
    (send_acknowledgment O q s).base_seq = s.base_seq ∧
    (send_acknowledgment O q s).next_seq_num = s.next_seq_num ∧
    (send_acknowledgment O q s).packet_timers = s.packet_timers ∧
    (send_acknowledgment O q s).ack_received = s.ack_received ∧
    (send_acknowledgment O q s).transmission_count = s.transmission_count ∧
    (send_acknowledgment O q s).last_ack_time = s.last_ack_time ∧
    (send_acknowledgment O q s).packet_retries = s.packet_retries ∧
    (send_acknowledgment O q s).expected_seq = s.expected_seq ∧
    (send_acknowledgment O q s).receiver_window = s.receiver_window ∧
    (send_acknowledgment O q s).data_channel = s.data_channel ∧
    (send_acknowledgment O q s).finished = s.finished ∧
    (send_acknowledgment O q s).ack_channel
      = s.ack_channel ++ (if O s.rng then [q] else []) ∧
    (send_acknowledgment O q s).rng = s.rng + 1 := by
  rw [send_acknowledgment_eq]; by_cases hO : O s.rng <;> simp [hO]

/-! ### Fields preserved by the three sender-side loops -/

theorem tnpStep_fields (O : Nat → Bool) (now : ℚ) (p : SRPState × Nat) (q : Nat) :
    (tnpStep O now p q).1.base_seq = p.1.base_seq ∧
    (tnpStep O now p q).1.expected_seq = p.1.expected_seq ∧
    (tnpStep O now p q).1.receiver_window = p.1.receiver_window ∧
    (tnpStep O now p q).1.ack_received = p.1.ack_received ∧
    (tnpStep O now p q).1.ack_channel = p.1.ack_channel ∧
    (tnpStep O now p q).1.last_ack_time = p.1.last_ack_time ∧
    (tnpStep O now p q).1.finished = p.1.finished ∧
    (tnpStep O now p q).1.next_seq_num = q + 1 := by
  unfold tnpStep
  by_cases h : q ∈ p.1.ack_received <;>
    simp [h, tp_base, tp_expected, tp_window, tp_acked, tp_ackch, tp_last, tp_finished]

theorem tnp_fold_fixed (O : Nat → Bool) (now : ℚ) (l : List Nat) :
    ∀ p : SRPState × Nat,
      (l.foldl (tnpStep O now) p).1.base_seq = p.1.base_seq ∧
      (l.foldl (tnpStep O now) p).1.expected_seq = p.1.expected_seq ∧
      (l.foldl (tnpStep O now) p).1.receiver_window = p.1.receiver_window ∧
      (l.foldl (tnpStep O now) p).1.ack_received = p.1.ack_received ∧
      (l.foldl (tnpStep O now) p).1.ack_channel = p.1.ack_channel ∧
      (l.foldl (tnpStep O now) p).1.last_ack_time = p.1.last_ack_time ∧
      (l.foldl (tnpStep O now) p).1.finished = p.1.finished := by
  induction l with
  | nil => intro p; simp
  | cons q rest ih =>
    intro p
    obtain ⟨h1, h2, h3, h4, h5, h6, h7⟩ := ih (tnpStep O now p q)
    obtain ⟨g1, g2, g3, g4, g5, g6, g7, g8⟩ := tnpStep_fields O now p q
    rw [List.foldl_cons]
    exact ⟨h1.trans g1, h2.trans g2, h3.trans g3, h4.trans g4, h5.trans g5,
      h6.trans g6, h7.trans g7⟩

theorem tnp_fold_next (O : Nat → Bool) (now : ℚ) :
    ∀ (n a : Nat) (p : SRPState × Nat), p.1.next_seq_num = a →
      ((List.range' a n).foldl (tnpStep O now) p).1.next_seq_num = a + n := by
  intro n
  induction n with
  | zero => intro a p hp; simpa using hp
  | succ n ih =>
    intro a p hp
    rw [List.range'_succ, List.foldl_cons]
    have hstep : (tnpStep O now p a).1.next_seq_num = a + 1 :=
      (tnpStep_fields O now p a).2.2.2.2.2.2.2
    have h2 := ih (a + 1) (tnpStep O now p a) hstep
    omega

theorem tnp_next_eq (cfg : Cfg) (O : Nat → Bool) (now : ℚ) (s : SRPState) :
    (_transmit_new_packets cfg O now s).1.next_seq_num
      = s.next_seq_num + (min (s.base_seq + cfg.N) cfg.total_packets - s.next_seq_num) := by
  unfold _transmit_new_packets
  exact tnp_fold_next O now _ _ (s, 0) rfl

theorem ctoStep_fields (cfg : Cfg) (O : Nat → Bool) (now : ℚ) (s : SRPState) (seq : Nat) :
    (ctoStep cfg O now s seq).base_seq = s.base_seq ∧
    (ctoStep cfg O now s seq).next_seq_num = s.next_seq_num ∧
    (ctoStep cfg O now s seq).expected_seq = s.expected_seq ∧
    (ctoStep cfg O now s seq).receiver_window = s.receiver_window ∧
    (ctoStep cfg O now s seq).ack_received = s.ack_received ∧
    (ctoStep cfg O now s seq).ack_channel = s.ack_channel ∧
    (ctoStep cfg O now s seq).last_ack_time = s.last_ack_time ∧
    (ctoStep cfg O now s seq).finished = s.finished := by
  unfold ctoStep
  by_cases h : seq ∉ s.ack_received ∧ seq < cfg.total_packets <;>
    simp [h, tp_base, tp_next, tp_expected, tp_window, tp_acked, tp_ackch, tp_last,
      tp_finished]

theorem cto_fold_fixed (cfg : Cfg) (O : Nat → Bool) (now : ℚ) (l : List Nat) :
    ∀ s : SRPState,
      (l.foldl (ctoStep cfg O now) s).base_seq = s.base_seq ∧
      (l.foldl (ctoStep cfg O now) s).next_seq_num = s.next_seq_num ∧
      (l.foldl (ctoStep cfg O now) s).expected_seq = s.expected_seq ∧
      (l.foldl (ctoStep cfg O now) s).receiver_window = s.receiver_window ∧
      (l.foldl (ctoStep cfg O now) s).ack_received = s.ack_received ∧
      (l.foldl (ctoStep cfg O now) s).ack_channel = s.ack_channel ∧
      (l.foldl (ctoStep cfg O now) s).last_ack_time = s.last_ack_time ∧
      (l.foldl (ctoStep cfg O now) s).finished = s.finished := by
  induction l with
  | nil => intro s; simp
  | cons q rest ih =>
    intro s
    obtain ⟨h1, h2, h3, h4, h5, h6, h7, h8⟩ := ih (ctoStep cfg O now s q)
    obtain ⟨g1, g2, g3, g4, g5, g6, g7, g8⟩ := ctoStep_fields cfg O now s q
    rw [List.foldl_cons]
    exact ⟨h1.trans g1, h2.trans g2, h3.trans g3, h4.trans g4, h5.trans g5,
      h6.trans g6, h7.trans g7, h8.trans g8⟩

theorem cto_fixed (cfg : Cfg) (O : Nat → Bool) (now : ℚ) (s : SRPState) :
    (_check_timeouts cfg O now s).base_seq = s.base_seq ∧
    (_check_timeouts cfg O now s).next_seq_num = s.next_seq_num ∧
    (_check_timeouts cfg O now s).expected_seq = s.expected_seq ∧
    (_check_timeouts cfg O now s).receiver_window = s.receiver_window ∧
    (_check_timeouts cfg O now s).ack_received = s.ack_received ∧
    (_check_timeouts cfg O now s).ack_channel = s.ack_channel ∧
    (_check_timeouts cfg O now s).last_ack_time = s.last_ack_time ∧
    (_check_timeouts cfg O now s).finished = s.finished := by
  unfold _check_timeouts
  exact cto_fold_fixed cfg O now _ s

theorem stallStep_fields (O : Nat → Bool) (now : ℚ) (s : SRPState) (q : Nat) :
    (stallStep O now s q).base_seq = s.base_seq ∧
    (stallStep O now s q).next_seq_num = s.next_seq_num ∧
    (stallStep O now s q).expected_seq = s.expected_seq ∧
    (stallStep O now s q).receiver_window = s.receiver_window ∧
    (stallStep O now s q).ack_received = s.ack_received ∧
    (stallStep O now s q).ack_channel = s.ack_channel ∧
    (stallStep O now s q).last_ack_time = s.last_ack_time ∧
    (stallStep O now s q).finished = s.finished := by
  unfold stallStep
  by_cases h : q ∈ s.ack_received <;>
    simp [h, tp_base, tp_next, tp_expected, tp_window, tp_acked, tp_ackch, tp_last,
      tp_finished]

theorem stall_fold_fixed (O : Nat → Bool) (now : ℚ) (l : List Nat) :
    ∀ s : SRPState,
      (l.foldl (stallStep O now) s).base_seq = s.base_seq ∧
      (l.foldl (stallStep O now) s).next_seq_num = s.next_seq_num ∧
      (l.foldl (stallStep O now) s).expected_seq = s.expected_seq ∧
      (l.foldl (stallStep O now) s).receiver_window = s.receiver_window ∧
      (l.foldl (stallStep O now) s).ack_received = s.ack_received ∧
      (l.foldl (stallStep O now) s).ack_channel = s.ack_channel ∧
      (l.foldl (stallStep O now) s).last_ack_time = s.last_ack_time ∧
      (l.foldl (stallStep O now) s).finished = s.finished := by
  induction l with
  | nil => intro s; simp
  | cons q rest ih =>
    intro s
    obtain ⟨h1, h2, h3, h4, h5, h6, h7, h8⟩ := ih (stallStep O now s q)
    obtain ⟨g1, g2, g3, g4, g5, g6, g7, g8⟩ := stallStep_fields O now s q
    rw [List.foldl_cons]
    exact ⟨h1.trans g1, h2.trans g2, h3.trans g3, h4.trans g4, h5.trans g5,
      h6.trans g6, h7.trans g7, h8.trans g8⟩

theorem stall_fixed (cfg : Cfg) (O : Nat → Bool) (now : ℚ) (s : SRPState) :
    (_recover_from_stall cfg O now s).base_seq = s.base_seq ∧
    (_recover_from_stall cfg O now s).next_seq_num = s.base_seq ∧
    (_recover_from_stall cfg O now s).expected_seq = s.expected_seq ∧
    (_recover_from_stall cfg O now s).receiver_window = s.receiver_window ∧
    (_recover_from_stall cfg O now s).ack_received = s.ack_received ∧
    (_recover_from_stall cfg O now s).ack_channel = s.ack_channel ∧
    (_recover_from_stall cfg O now s).last_ack_time = s.last_ack_time ∧
    (_recover_from_stall cfg O now s).finished = s.finished := by
  unfold _recover_from_stall
  exact stall_fold_fixed O now _ _

theorem sa_base (O : Nat → Bool) (q : Nat) (s : SRPState) :
    (send_acknowledgment O q s).base_seq = s.base_seq := (sa_fields O q s).1

theorem sa_next (O : Nat → Bool) (q : Nat) (s : SRPState) :
    (send_acknowledgment O q s).next_seq_num = s.next_seq_num := (sa_fields O q s).2.1

theorem sa_timers (O : Nat → Bool) (q : Nat) (s : SRPState) :
    (send_acknowledgment O q s).packet_timers = s.packet_timers := (sa_fields O q s).2.2.1

theorem sa_acked (O : Nat → Bool) (q : Nat) (s : SRPState) :
    (send_acknowledgment O q s).ack_received = s.ack_received := (sa_fields O q s).2.2.2.1

theorem sa_count (O : Nat → Bool) (q : Nat) (s : SRPState) :
    (send_acknowledgment O q s).transmission_count = s.transmission_count :=
  (sa_fields O q s).2.2.2.2.1

theorem sa_last (O : Nat → Bool) (q : Nat) (s : SRPState) :
    (send_acknowledgment O q s).last_ack_time = s.last_ack_time :=
  (sa_fields O q s).2.2.2.2.2.1

theorem sa_retries (O : Nat → Bool) (q : Nat) (s : SRPState) :
    (send_acknowledgment O q s).packet_retries = s.packet_retries :=
  (sa_fields O q s).2.2.2.2.2.2.1

theorem sa_expected (O : Nat → Bool) (q : Nat) (s : SRPState) :
    (send_acknowledgment O q s).expected_seq = s.expected_seq :=
  (sa_fields O q s).2.2.2.2.2.2.2.1

theorem sa_window (O : Nat → Bool) (q : Nat) (s : SRPState) :
    (send_acknowledgment O q s).receiver_window = s.receiver_window :=
  (sa_fields O q s).2.2.2.2.2.2.2.2.1

theorem sa_data (O : Nat → Bool) (q : Nat) (s : SRPState) :
    (send_acknowledgment O q s).data_channel = s.data_channel :=
  (sa_fields O q s).2.2.2.2.2.2.2.2.2.1

theorem sa_finished (O : Nat → Bool) (q : Nat) (s : SRPState) :
    (send_acknowledgment O q s).finished = s.finished :=
  (sa_fields O q s).2.2.2.2.2.2.2.2.2.2.1

theorem sa_ackch (O : Nat → Bool) (q : Nat) (s : SRPState) :
    (send_acknowledgment O q s).ack_channel
      = s.ack_channel ++ (if O s.rng then [q] else []) :=
  (sa_fields O q s).2.2.2.2.2.2.2.2.2.2.2.1

theorem sa_rng (O : Nat → Bool) (q : Nat) (s : SRPState) :
    (send_acknowledgment O q s).rng = s.rng + 1 :=
  (sa_fields O q s).2.2.2.2.2.2.2.2.2.2.2.2

attribute [simp] tp_base tp_next tp_expected tp_window tp_acked tp_ackch tp_last
  tp_count tp_rng tp_finished tp_snd tp_data tp_timers tp_retries
  sa_base sa_next sa_timers sa_acked sa_count sa_last sa_retries sa_expected
  sa_window sa_data sa_finished sa_ackch sa_rng

theorem tnp_fixed (cfg : Cfg) (O : Nat → Bool) (now : ℚ) (s : SRPState) :
    (_transmit_new_packets cfg O now s).1.base_seq = s.base_seq ∧
    (_transmit_new_packets cfg O now s).1.expected_seq = s.expected_seq ∧
    (_transmit_new_packets cfg O now s).1.receiver_window = s.receiver_window ∧
    (_transmit_new_packets cfg O now s).1.ack_received = s.ack_received ∧
    (_transmit_new_packets cfg O now s).1.ack_channel = s.ack_channel ∧
    (_transmit_new_packets cfg O now s).1.last_ack_time = s.last_ack_time ∧
    (_transmit_new_packets cfg O now s).1.finished = s.finished := by
  unfold _transmit_new_packets
  exact tnp_fold_fixed O now _ _

theorem handle_fixed (cfg : Cfg) (O : Nat → Bool) (s : SRPState) :
    (_handle_data_reception cfg O s).1.base_seq = s.base_seq ∧
    (_handle_data_reception cfg O s).1.next_seq_num = s.next_seq_num ∧
    (_handle_data_reception cfg O s).1.packet_timers = s.packet_timers ∧
    (_handle_data_reception cfg O s).1.ack_received = s.ack_received ∧
    (_handle_data_reception cfg O s).1.packet_retries = s.packet_retries ∧
    (_handle_data_reception cfg O s).1.transmission_count = s.transmission_count ∧
    (_handle_data_reception cfg O s).1.last_ack_time = s.last_ack_time ∧
    (_handle_data_reception cfg O s).1.finished = s.finished := by
  cases hd : s.data_channel with
  | nil => simp [_handle_data_reception, hd]
  | cons seq rest =>
    simp only [_handle_data_reception, hd]
    split_ifs with h1 h2 <;> simp

theorem handle_expected_log (cfg : Cfg) (O : Nat → Bool) (s : SRPState) :
    s.expected_seq ≤ (_handle_data_reception cfg O s).1.expected_seq ∧
    (_handle_data_reception cfg O s).2
      = List.range' s.expected_seq
          ((_handle_data_reception cfg O s).1.expected_seq - s.expected_seq) := by
  cases hd : s.data_channel with
  | nil => simp [_handle_data_reception, hd]
  | cons seq rest =>
    simp only [_handle_data_reception, hd]
    split_ifs with h1 h2
    · obtain ⟨d1, d2, d3, d4⟩ := drain_spec s.expected_seq s.receiver_window
      simpa using ⟨d1, d4⟩
    · obtain ⟨d1, d2, d3, d4⟩ :=
        drain_spec s.expected_seq (insert seq s.receiver_window)
      simpa using ⟨d1, d4⟩
    · simp
    · simp

theorem acks_fixed (now : ℚ) (s : SRPState) :
    (_process_acknowledgments now s).expected_seq = s.expected_seq ∧
    (_process_acknowledgments now s).receiver_window = s.receiver_window ∧
    (_process_acknowledgments now s).data_channel = s.data_channel ∧
    (_process_acknowledgments now s).transmission_count = s.transmission_count ∧
    (_process_acknowledgments now s).rng = s.rng ∧
    (_process_acknowledgments now s).finished = s.finished ∧
    s.base_seq ≤ (_process_acknowledgments now s).base_seq ∧
    (_process_acknowledgments now s).next_seq_num = s.next_seq_num := by
  cases hd : s.ack_channel with
  | nil => simp [_process_acknowledgments, hd]
  | cons seq rest => simp [_process_acknowledgments, hd, slideBase_le]

/-! ### What the loop steps may add to the data channel and the timer table -/

theorem tp_data_mem {O : Nat → Bool} {now : ℚ} {q q' : Nat} {s : SRPState}
    (h : q' ∈ (transmit_packet O now q s).1.data_channel) :
    q' ∈ s.data_channel ∨ q' = q := by
  rw [tp_data] at h
  rcases List.mem_append.1 h with h1 | h1
  · exact Or.inl h1
  · right
    by_cases hO : O s.rng <;> simp [hO] at h1
    exact h1

theorem tp_timers_mem {O : Nat → Bool} {now : ℚ} {q : Nat} {s : SRPState} {p : Nat × ℚ}
    (h : p ∈ (transmit_packet O now q s).1.packet_timers) :
    p ∈ s.packet_timers ∨ p.1 = q := by
  rw [tp_timers] at h
  by_cases hO : O s.rng
  · rw [if_pos hO] at h
    rcases mem_dictSet h with h1 | h1
    · right; rw [h1]
    · exact Or.inl h1
  · rw [if_neg hO] at h; exact Or.inl h

theorem tnpStep_data {O : Nat → Bool} {now : ℚ} {p : SRPState × Nat} {q q' : Nat}
    (h : q' ∈ (tnpStep O now p q).1.data_channel) :
    q' ∈ p.1.data_channel ∨ q' = q := by
  unfold tnpStep at h
  by_cases hq : q ∈ p.1.ack_received
  · rw [if_pos hq] at h; exact Or.inl h
  · rw [if_neg hq] at h; exact tp_data_mem h

theorem tnpStep_timers {O : Nat → Bool} {now : ℚ} {p : SRPState × Nat} {q : Nat}
    {pr : Nat × ℚ} (h : pr ∈ (tnpStep O now p q).1.packet_timers) :
    pr ∈ p.1.packet_timers ∨ pr.1 = q := by
  unfold tnpStep at h
  by_cases hq : q ∈ p.1.ack_received
  · rw [if_pos hq] at h; exact Or.inl h
  · rw [if_neg hq] at h; exact tp_timers_mem h

theorem ctoStep_data {cfg : Cfg} {O : Nat → Bool} {now : ℚ} {s : SRPState} {q q' : Nat}
    (h : q' ∈ (ctoStep cfg O now s q).data_channel) :
    q' ∈ s.data_channel ∨ q' = q := by
  unfold ctoStep at h
  by_cases hq : q ∉ s.ack_received ∧ q < cfg.total_packets
  · rw [if_pos hq] at h; exact tp_data_mem h
  · rw [if_neg hq] at h; exact Or.inl h

theorem ctoStep_timers {cfg : Cfg} {O : Nat → Bool} {now : ℚ} {s : SRPState} {q : Nat}
    {pr : Nat × ℚ} (h : pr ∈ (ctoStep cfg O now s q).packet_timers) :
    pr ∈ s.packet_timers ∨ pr.1 = q := by
  unfold ctoStep at h
  by_cases hq : q ∉ s.ack_received ∧ q < cfg.total_packets
  · rw [if_pos hq] at h
    simp only at h
    rcases mem_dictSet h with h1 | h1
    · right; rw [h1]
    · exact tp_timers_mem h1
  · rw [if_neg hq] at h; exact Or.inl h

theorem stallStep_data {O : Nat → Bool} {now : ℚ} {s : SRPState} {q q' : Nat}
    (h : q' ∈ (stallStep O now s q).data_channel) :
    q' ∈ s.data_channel ∨ q' = q := by
  unfold stallStep at h
  by_cases hq : q ∈ s.ack_received
  · rw [if_pos hq] at h; exact Or.inl h
  · rw [if_neg hq] at h; exact tp_data_mem h

theorem stallStep_timers {O : Nat → Bool} {now : ℚ} {s : SRPState} {q : Nat}
    {pr : Nat × ℚ} (h : pr ∈ (stallStep O now s q).packet_timers) :
    pr ∈ s.packet_timers ∨ pr.1 = q := by
  unfold stallStep at h
  by_cases hq : q ∈ s.ack_received
  · rw [if_pos hq] at h; exact Or.inl h
  · rw [if_neg hq] at h; exact tp_timers_mem h

/-! ### The run invariant -/

theorem ProtInv_set_last (cfg : Cfg) {s : SRPState} (t : ℚ) (hs : ProtInv cfg s) :
    ProtInv cfg { s with last_ack_time := t } := by
  obtain ⟨h1, h2, h3, h4, h5, h6, h7, h8, h9, h10, h11, h12⟩ := hs
  exact ⟨h1, h2, h3, h4, h5, h6, h7, h8, h9, h10, h11, h12⟩

theorem ProtInv_init (cfg : Cfg) : ProtInv cfg initState := by
  refine ⟨?_, ?_, ?_, ?_, ?_, ?_, ?_, ?_, ?_, ?_, ?_, ?_⟩ <;> simp [initState]

theorem stall_fold_data (O : Nat → Bool) (now : ℚ) (l : List Nat) :
    ∀ (s : SRPState) (q' : Nat), q' ∈ (l.foldl (stallStep O now) s).data_channel →
      q' ∈ s.data_channel ∨ q' ∈ l := by
  induction l with
  | nil => intro s q' h; exact Or.inl (by simpa using h)
  | cons q rest ih =>
    intro s q' h
    rw [List.foldl_cons] at h
    rcases ih _ q' h with h1 | h1
    · rcases stallStep_data h1 with h2 | h2
      · exact Or.inl h2
      · right; simp [h2]
    · right; simp [h1]

theorem stall_fold_timers (O : Nat → Bool) (now : ℚ) (l : List Nat) :
    ∀ (s : SRPState) (pr : Nat × ℚ), pr ∈ (l.foldl (stallStep O now) s).packet_timers →
      pr ∈ s.packet_timers ∨ pr.1 ∈ l := by
  induction l with
  | nil => intro s pr h; exact Or.inl (by simpa using h)
  | cons q rest ih =>
    intro s pr h
    rw [List.foldl_cons] at h
    rcases ih _ pr h with h1 | h1
    · rcases stallStep_timers h1 with h2 | h2
      · exact Or.inl h2
      · right; simp [h2]
    · right; simp [h1]

theorem cto_fold_data (cfg : Cfg) (O : Nat → Bool) (now : ℚ) (l : List Nat) :
    ∀ (s : SRPState) (q' : Nat), q' ∈ (l.foldl (ctoStep cfg O now) s).data_channel →
      q' ∈ s.data_channel ∨ q' ∈ l := by
  induction l with
  | nil => intro s q' h; exact Or.inl (by simpa using h)
  | cons q rest ih =>
    intro s q' h
    rw [List.foldl_cons] at h
    rcases ih _ q' h with h1 | h1
    · rcases ctoStep_data h1 with h2 | h2
      · exact Or.inl h2
      · right; simp [h2]
    · right; simp [h1]

theorem cto_fold_timers (cfg : Cfg) (O : Nat → Bool) (now : ℚ) (l : List Nat) :
    ∀ (s : SRPState) (pr : Nat × ℚ), pr ∈ (l.foldl (ctoStep cfg O now) s).packet_timers →
      pr ∈ s.packet_timers ∨ pr.1 ∈ l := by
  induction l with
  | nil => intro s pr h; exact Or.inl (by simpa using h)
  | cons q rest ih =>
    intro s pr h
    rw [List.foldl_cons] at h
    rcases ih _ pr h with h1 | h1
    · rcases ctoStep_timers h1 with h2 | h2
      · exact Or.inl h2
      · right; simp [h2]
    · right; simp [h1]

theorem ProtInv_tnpStep (cfg : Cfg) (O : Nat → Bool) (now : ℚ) {p : SRPState × Nat}
    {q : Nat} (hp : ProtInv cfg p.1) (hq1 : p.1.base_seq ≤ q)
    (hq2 : q < p.1.base_seq + cfg.N) (hq3 : q < cfg.total_packets) :
    ProtInv cfg (tnpStep O now p q).1 := by
  obtain ⟨h1, h2, h3, h4, h5, h6, h7, h8, h9, h10, h11, h12⟩ := hp
  obtain ⟨f1, f2, f3, f4, f5, f6, f7, f8⟩ := tnpStep_fields O now p q
  refine ⟨?_, ?_, ?_, ?_, ?_, ?_, ?_, ?_, ?_, ?_, ?_, ?_⟩
  · rw [f1, f8]; omega
  · rw [f1, f8]; omega
  · rw [f8]; omega
  · rw [f4, f1]; exact h4
  · rw [f5, f1]; exact h5
  · rw [f1]
    intro q' hq'
    rcases tnpStep_data hq' with h | h
    · exact h6 q' h
    · subst h; exact ⟨hq2, hq3⟩
  · rw [f1]
    intro pr hpr
    rcases tnpStep_timers hpr with h | h
    · exact h7 pr h
    · rw [h]; exact ⟨hq2, hq3⟩
  · rw [f1, f2]; exact h8
  · rw [f2, f3]; exact h9
  · rw [f2, f3]; exact h10
  · rw [f4, f2, f3]; exact h11
  · rw [f5, f2, f3]; exact h12

theorem tnp_inv (cfg : Cfg) (O : Nat → Bool) (now : ℚ) (s : SRPState)
    (hs : ProtInv cfg s) :
    ProtInv cfg (_transmit_new_packets cfg O now s).1 ∧
    (_transmit_new_packets cfg O now s).1.next_seq_num
      = min (s.base_seq + cfg.N) cfg.total_packets := by
  constructor
  · unfold _transmit_new_packets
    refine (List.foldlRecOn _ (tnpStep O now) (s, 0)
      (motive := fun p => ProtInv cfg p.1 ∧ p.1.base_seq = s.base_seq)
      ⟨hs, rfl⟩ ?_).1
    rintro p ⟨hp, hpb⟩ q hq
    rw [List.mem_range'_1] at hq
    have hw := hs.next_le_window
    have ht := hs.next_le_total
    have hb := hs.base_le_next
    have hq2 : q < s.base_seq + cfg.N := by omega
    have hq3 : q < cfg.total_packets := by omega
    have hq1 : p.1.base_seq ≤ q := by omega
    refine ⟨ProtInv_tnpStep cfg O now hp hq1 (by omega) hq3, ?_⟩
    rw [(tnpStep_fields O now p q).1, hpb]
  · rw [tnp_next_eq]
    have := hs.next_le_window; have := hs.next_le_total
    omega

theorem stall_inv (cfg : Cfg) (O : Nat → Bool) (now : ℚ) (s : SRPState)
    (hs : ProtInv cfg s) : ProtInv cfg (_recover_from_stall cfg O now s) := by
  obtain ⟨h1, h2, h3, h4, h5, h6, h7, h8, h9, h10, h11, h12⟩ := hs
  unfold _recover_from_stall
  simp only []
  obtain ⟨f1, f2, f3, f4, f5, f6, f7, f8⟩ :=
    stall_fold_fixed O now
      (List.range' s.base_seq (min (s.base_seq + cfg.N) cfg.total_packets - s.base_seq))
      { s with next_seq_num := s.base_seq }
  have e1 : ({ s with next_seq_num := s.base_seq } : SRPState).base_seq = s.base_seq := rfl
  have e2 : ({ s with next_seq_num := s.base_seq } : SRPState).next_seq_num
      = s.base_seq := rfl
  have e3 : ({ s with next_seq_num := s.base_seq } : SRPState).expected_seq
      = s.expected_seq := rfl
  have e4 : ({ s with next_seq_num := s.base_seq } : SRPState).receiver_window
      = s.receiver_window := rfl
  have e5 : ({ s with next_seq_num := s.base_seq } : SRPState).ack_received
      = s.ack_received := rfl
  have e6 : ({ s with next_seq_num := s.base_seq } : SRPState).ack_channel
      = s.ack_channel := rfl
  have e7 : ({ s with next_seq_num := s.base_seq } : SRPState).data_channel
      = s.data_channel := rfl
  have e8 : ({ s with next_seq_num := s.base_seq } : SRPState).packet_timers
      = s.packet_timers := rfl
  refine ⟨?_, ?_, ?_, ?_, ?_, ?_, ?_, ?_, ?_, ?_, ?_, ?_⟩
  · rw [f1, f2]
  · rw [f1, f2, e1, e2]; omega
  · rw [f2, e2]; omega
  · rw [f5, f1, e5, e1]; exact h4
  · rw [f6, f1, e6, e1]; exact h5
  · rw [f1, e1]
    intro q' hq'
    rcases stall_fold_data O now _ _ q' hq' with h | h
    · rw [e7] at h; exact h6 q' h
    · rw [List.mem_range'_1, e1] at h
      omega
  · rw [f1, e1]
    intro pr hpr
    rcases stall_fold_timers O now _ _ pr hpr with h | h
    · rw [e8] at h; exact h7 pr h
    · rw [List.mem_range'_1, e1] at h
      omega
  · rw [f1, f3, e1, e3]; exact h8
  · rw [f3, f4, e3, e4]; exact h9
  · rw [f3, f4, e3, e4]; exact h10
  · rw [f5, f3, f4, e5, e3, e4]; exact h11
  · rw [f6, f3, f4, e6, e3, e4]; exact h12


theorem cto_inv (cfg : Cfg) (O : Nat → Bool) (now : ℚ) (s : SRPState)
    (hs : ProtInv cfg s) : ProtInv cfg (_check_timeouts cfg O now s) := by
  obtain ⟨h1, h2, h3, h4, h5, h6, h7, h8, h9, h10, h11, h12⟩ := hs
  unfold _check_timeouts
  simp only []
  have hl : ∀ q ∈ (s.packet_timers.filter
      (fun p => decide (now - p.2 > calculate_timeout s.packet_retries p.1))).map Prod.fst,
      q < s.base_seq + cfg.N ∧ q < cfg.total_packets := by
    intro q hq
    simp only [List.mem_map, List.mem_filter] at hq
    obtain ⟨pr, ⟨hpr, _⟩, rfl⟩ := hq
    exact h7 pr hpr
  obtain ⟨f1, f2, f3, f4, f5, f6, f7, f8⟩ := cto_fold_fixed cfg O now
    ((s.packet_timers.filter
      (fun p => decide (now - p.2 > calculate_timeout s.packet_retries p.1))).map Prod.fst) s
  refine ⟨?_, ?_, ?_, ?_, ?_, ?_, ?_, ?_, ?_, ?_, ?_, ?_⟩
  · rw [f1, f2]; exact h1
  · rw [f1, f2]; exact h2
  · rw [f2]; exact h3
  · rw [f5, f1]; exact h4
  · rw [f6, f1]; exact h5
  · rw [f1]
    intro q' hq'
    rcases cto_fold_data cfg O now _ _ q' hq' with h | h
    · exact h6 q' h
    · exact hl q' h
  · rw [f1]
    intro pr hpr
    rcases cto_fold_timers cfg O now _ _ pr hpr with h | h
    · exact h7 pr h
    · exact hl pr.1 h
  · rw [f1, f3]; exact h8
  · rw [f3, f4]; exact h9
  · rw [f3, f4]; exact h10
  · rw [f5, f3, f4]; exact h11
  · rw [f6, f3, f4]; exact h12

theorem mem_ite_append {q seq : Nat} {l : List Nat} {c : Bool}
    (h : q ∈ l ++ (if c then [seq] else [])) : q ∈ l ∨ q = seq := by
  rcases List.mem_append.1 h with h | h
  · exact Or.inl h
  · cases c
    · simp at h
    · simp at h; exact Or.inr h

theorem ProtInv_drain (cfg : Cfg) (t : SRPState)
    (g1 : t.base_seq ≤ t.next_seq_num)
    (g2 : t.next_seq_num ≤ t.base_seq + cfg.N)
    (g3 : t.next_seq_num ≤ cfg.total_packets)
    (g4 : ∀ q ∈ t.ack_received, q < t.base_seq + cfg.N ∧ q < cfg.total_packets)
    (g5 : ∀ q ∈ t.ack_channel, q < t.base_seq + cfg.N ∧ q < cfg.total_packets)
    (g6 : ∀ q ∈ t.data_channel, q < t.base_seq + cfg.N ∧ q < cfg.total_packets)
    (g7 : ∀ p ∈ t.packet_timers, p.1 < t.base_seq + cfg.N ∧ p.1 < cfg.total_packets)
    (g8 : t.base_seq ≤ t.expected_seq)
    (g10 : ∀ q ∈ t.receiver_window,
      t.expected_seq ≤ q ∧ (q : ℤ) ≤ (t.expected_seq : ℤ) + cfg.N - 1)
    (g11 : ∀ q ∈ t.ack_received, q < t.expected_seq ∨ q ∈ t.receiver_window)
    (g12 : ∀ q ∈ t.ack_channel, q < t.expected_seq ∨ q ∈ t.receiver_window) :
    ProtInv cfg { t with
      expected_seq := (drain t.expected_seq t.receiver_window).1,
      receiver_window := (drain t.expected_seq t.receiver_window).2.1 } := by
  obtain ⟨d1, d2, d3, d4⟩ := drain_spec t.expected_seq t.receiver_window
  refine ⟨g1, g2, g3, g4, g5, g6, g7, le_trans g8 d1, d2, ?_, ?_, ?_⟩
  · intro q hq
    show (drain t.expected_seq t.receiver_window).1 ≤ q ∧
      (q : ℤ) ≤ ((drain t.expected_seq t.receiver_window).1 : ℤ) + cfg.N - 1
    rcases (d3 q).1 hq with ⟨hq1, hq2⟩
    obtain ⟨ha, hb⟩ := g10 q hq1
    exact ⟨by omega, by omega⟩
  · intro q hq
    show q < (drain t.expected_seq t.receiver_window).1 ∨
      q ∈ (drain t.expected_seq t.receiver_window).2.1
    rcases g11 q hq with h | h
    · exact Or.inl (by omega)
    · by_cases hq2 : q ∈ (drain t.expected_seq t.receiver_window).2.1
      · exact Or.inr hq2
      · left
        obtain ⟨hge, _⟩ := g10 q h
        by_contra hcon
        exact hq2 ((d3 q).2 ⟨h, by omega⟩)
  · intro q hq
    show q < (drain t.expected_seq t.receiver_window).1 ∨
      q ∈ (drain t.expected_seq t.receiver_window).2.1
    rcases g12 q hq with h | h
    · exact Or.inl (by omega)
    · by_cases hq2 : q ∈ (drain t.expected_seq t.receiver_window).2.1
      · exact Or.inr hq2
      · left
        obtain ⟨hge, _⟩ := g10 q h
        by_contra hcon
        exact hq2 ((d3 q).2 ⟨h, by omega⟩)

theorem handle_inv (cfg : Cfg) (O : Nat → Bool) (s : SRPState) (hs : ProtInv cfg s) :
    ProtInv cfg (_handle_data_reception cfg O s).1 := by
  obtain ⟨h1, h2, h3, h4, h5, h6, h7, h8, h9, h10, h11, h12⟩ := hs
  cases hd : s.data_channel with
  | nil =>
    simp only [_handle_data_reception, hd]
    exact ⟨h1, h2, h3, h4, h5, h6, h7, h8, h9, h10, h11, h12⟩
  | cons seq rest =>
    have hseq : seq < s.base_seq + cfg.N ∧ seq < cfg.total_packets :=
      h6 seq (by rw [hd]; exact List.mem_cons_self _ _)
    have hrest : ∀ q ∈ rest, q < s.base_seq + cfg.N ∧ q < cfg.total_packets :=
      fun q hq => h6 q (by rw [hd]; exact List.mem_cons_of_mem _ hq)
    simp only [_handle_data_reception, hd]
    split_ifs with hw hbuf
    · -- in window and already buffered: only the drain runs
      exact ProtInv_drain cfg _ h1 h2 h3 h4 h5 hrest h7 h8 h10 h11 h12
    · -- in window, new: buffer it, acknowledge it, then drain
      have hw' : (s.expected_seq : ℤ) ≤ (seq : ℤ) ∧
          (seq : ℤ) ≤ min ((s.expected_seq : ℤ) + cfg.N - 1)
            ((cfg.total_packets : ℤ) - 1) := hw
      have hws : s.expected_seq ≤ seq := by exact_mod_cast hw'.1
      have hwz : (seq : ℤ) ≤ (s.expected_seq : ℤ) + cfg.N - 1 :=
        le_trans hw'.2 (min_le_left _ _)
      refine ProtInv_drain cfg
        (send_acknowledgment O seq
          { s with data_channel := rest,
                   receiver_window := insert seq s.receiver_window })
        ?_ ?_ ?_ ?_ ?_ ?_ ?_ ?_ ?_ ?_ ?_
      · rw [sa_base, sa_next]; exact h1
      · rw [sa_base, sa_next]; exact h2
      · rw [sa_next]; exact h3
      · rw [sa_acked, sa_base]; exact h4
      · rw [sa_ackch, sa_base]
        intro q hq
        rcases mem_ite_append hq with hq | hq
        · exact h5 q hq
        · subst hq; exact hseq
      · rw [sa_data, sa_base]; exact hrest
      · rw [sa_timers, sa_base]; exact h7
      · rw [sa_base, sa_expected]; exact h8
      · rw [sa_expected, sa_window]
        intro q hq
        rcases Finset.mem_insert.1 hq with rfl | hq
        · exact ⟨hws, hwz⟩
        · obtain ⟨u1, u2⟩ := h10 q hq
          exact ⟨u1, u2⟩
      · rw [sa_acked, sa_expected, sa_window]
        intro q hq
        rcases h11 q hq with h | h
        · exact Or.inl h
        · exact Or.inr (Finset.mem_insert_of_mem h)
      · rw [sa_ackch, sa_expected, sa_window]
        intro q hq
        rcases mem_ite_append hq with hq | hq
        · rcases h12 q hq with h | h
          · exact Or.inl h
          · exact Or.inr (Finset.mem_insert_of_mem h)
        · subst hq; exact Or.inr (Finset.mem_insert_self _ _)
    · -- old duplicate below the window: re-acknowledge only
      rename_i hold
      have hold' : (seq : ℤ) < (s.expected_seq : ℤ) := hold
      have holdn : seq < s.expected_seq := by exact_mod_cast hold'
      refine ⟨?_, ?_, ?_, ?_, ?_, ?_, ?_, ?_, ?_, ?_, ?_, ?_⟩
      · rw [sa_base, sa_next]; exact h1
      · rw [sa_base, sa_next]; exact h2
      · rw [sa_next]; exact h3
      · rw [sa_acked, sa_base]; exact h4
      · rw [sa_ackch, sa_base]
        intro q hq
        rcases mem_ite_append hq with hq | hq
        · exact h5 q hq
        · subst hq; exact hseq
      · rw [sa_data, sa_base]; exact hrest
      · rw [sa_timers, sa_base]; exact h7
      · rw [sa_base, sa_expected]; exact h8
      · rw [sa_expected, sa_window]; exact h9
      · rw [sa_expected, sa_window]; exact h10
      · rw [sa_acked, sa_expected, sa_window]; exact h11
      · rw [sa_ackch, sa_expected, sa_window]
        intro q hq
        rcases mem_ite_append hq with hq | hq
        · exact h12 q hq
        · subst hq; exact Or.inl holdn
    · -- above the window: drop it
      exact ⟨h1, h2, h3, h4, h5, hrest, h7, h8, h9, h10, h11, h12⟩

theorem acks_inv (cfg : Cfg) (now : ℚ) (s : SRPState) (hs : ProtInv cfg s)
    (hnext : s.next_seq_num = min (s.base_seq + cfg.N) cfg.total_packets) :
    ProtInv cfg (_process_acknowledgments now s) := by
  obtain ⟨h1, h2, h3, h4, h5, h6, h7, h8, h9, h10, h11, h12⟩ := hs
  cases hd : s.ack_channel with
  | nil =>
    simp only [_process_acknowledgments, hd]
    exact ⟨h1, h2, h3, h4, h5, h6, h7, h8, h9, h10, h11, h12⟩
  | cons seq rest =>
    have hseq := h5 seq (by rw [hd]; exact List.mem_cons_self _ _)
    have hseqs := h12 seq (by rw [hd]; exact List.mem_cons_self _ _)
    have hrest5 : ∀ q ∈ rest, q < s.base_seq + cfg.N ∧ q < cfg.total_packets :=
      fun q hq => h5 q (by rw [hd]; exact List.mem_cons_of_mem _ hq)
    have hrest12 : ∀ q ∈ rest, q < s.expected_seq ∨ q ∈ s.receiver_window :=
      fun q hq => h12 q (by rw [hd]; exact List.mem_cons_of_mem _ hq)
    have hAb : ∀ q ∈ insert seq s.ack_received,
        q < s.base_seq + cfg.N ∧ q < cfg.total_packets := by
      intro q hq
      rcases Finset.mem_insert.1 hq with rfl | hq
      · exact hseq
      · exact h4 q hq
    have hAs : ∀ q ∈ insert seq s.ack_received,
        q < s.expected_seq ∨ q ∈ s.receiver_window := by
      intro q hq
      rcases Finset.mem_insert.1 hq with rfl | hq
      · exact hseqs
      · exact h11 q hq
    have hble : s.base_seq ≤ slideBase s.base_seq (insert seq s.ack_received) :=
      slideBase_le _ _
    have hbe : slideBase s.base_seq (insert seq s.ack_received) ≤ s.expected_seq := by
      apply slideBase_le_of h8
      intro hmem
      rcases hAs _ hmem with h | h
      · omega
      · exact h9 h
    have hbn : slideBase s.base_seq (insert seq s.ack_received) ≤ s.next_seq_num := by
      apply slideBase_le_of h1
      intro hmem
      obtain ⟨u1, u2⟩ := hAb _ hmem
      omega
    simp only [_process_acknowledgments, hd]
    refine ⟨hbn, ?_, h3, ?_, ?_, ?_, ?_, hbe, h9, h10, hAs, hrest12⟩
    · show s.next_seq_num ≤ slideBase s.base_seq (insert seq s.ack_received) + cfg.N
      omega
    · intro q hq
      show q < slideBase s.base_seq (insert seq s.ack_received) + cfg.N ∧
        q < cfg.total_packets
      obtain ⟨u1, u2⟩ := hAb q hq
      exact ⟨by omega, u2⟩
    · intro q hq
      show q < slideBase s.base_seq (insert seq s.ack_received) + cfg.N ∧
        q < cfg.total_packets
      obtain ⟨u1, u2⟩ := hrest5 q hq
      exact ⟨by omega, u2⟩
    · intro q hq
      show q < slideBase s.base_seq (insert seq s.ack_received) + cfg.N ∧
        q < cfg.total_packets
      obtain ⟨u1, u2⟩ := h6 q hq
      exact ⟨by omega, u2⟩
    · intro pr hpr
      show pr.1 < slideBase s.base_seq (insert seq s.ack_received) + cfg.N ∧
        pr.1 < cfg.total_packets
      obtain ⟨u1, u2⟩ := h7 pr (mem_dictDel hpr)
      exact ⟨by omega, u2⟩

/-! ### Assembling one loop iteration and the run -/

theorem tick_fst (cfg : Cfg) (O : Nat → Bool) (now : ℚ) (s : SRPState) :
    (tick cfg O now s).1 =
      _check_timeouts cfg O now
        (_process_acknowledgments now
          (_handle_data_reception cfg O
            (if 0 < (_transmit_new_packets cfg O now
                (if now - s.last_ack_time > STALL_LIMIT then
                  { _recover_from_stall cfg O now s with last_ack_time := now }
                 else s)).2
             then { (_transmit_new_packets cfg O now
                (if now - s.last_ack_time > STALL_LIMIT then
                  { _recover_from_stall cfg O now s with last_ack_time := now }
                 else s)).1 with last_ack_time := now }
             else (_transmit_new_packets cfg O now
                (if now - s.last_ack_time > STALL_LIMIT then
                  { _recover_from_stall cfg O now s with last_ack_time := now }
                 else s)).1)).1) := rfl

theorem tick_snd (cfg : Cfg) (O : Nat → Bool) (now : ℚ) (s : SRPState) :
    (tick cfg O now s).2 =
      (_handle_data_reception cfg O
        (if 0 < (_transmit_new_packets cfg O now
            (if now - s.last_ack_time > STALL_LIMIT then
              { _recover_from_stall cfg O now s with last_ack_time := now }
             else s)).2
         then { (_transmit_new_packets cfg O now
            (if now - s.last_ack_time > STALL_LIMIT then
              { _recover_from_stall cfg O now s with last_ack_time := now }
             else s)).1 with last_ack_time := now }
         else (_transmit_new_packets cfg O now
            (if now - s.last_ack_time > STALL_LIMIT then
              { _recover_from_stall cfg O now s with last_ack_time := now }
             else s)).1)).2 := rfl

theorem tick_inv (cfg : Cfg) (O : Nat → Bool) (now : ℚ) (s : SRPState)
    (hs : ProtInv cfg s) : ProtInv cfg (tick cfg O now s).1 := by
  rw [tick_fst]
  set s1 := (if now - s.last_ack_time > STALL_LIMIT then
      { _recover_from_stall cfg O now s with last_ack_time := now } else s) with hs1d
  have hs1 : ProtInv cfg s1 := by
    rw [hs1d]; split_ifs with h
    · exact ProtInv_set_last cfg now (stall_inv cfg O now s hs)
    · exact hs
  obtain ⟨hp, hpn⟩ := tnp_inv cfg O now s1 hs1
  set s2 := (if 0 < (_transmit_new_packets cfg O now s1).2
      then { (_transmit_new_packets cfg O now s1).1 with last_ack_time := now }
      else (_transmit_new_packets cfg O now s1).1) with hs2d
  have hs2 : ProtInv cfg s2 := by
    rw [hs2d]; split_ifs with h
    · exact ProtInv_set_last cfg now hp
    · exact hp
  have hs2base : s2.base_seq = s1.base_seq := by
    rw [hs2d]; split_ifs with h
    · show (_transmit_new_packets cfg O now s1).1.base_seq = s1.base_seq
      exact (tnp_fixed cfg O now s1).1
    · exact (tnp_fixed cfg O now s1).1
  have hs2next : s2.next_seq_num = min (s2.base_seq + cfg.N) cfg.total_packets := by
    rw [hs2base]
    have : s2.next_seq_num = (_transmit_new_packets cfg O now s1).1.next_seq_num := by
      rw [hs2d]; split_ifs with h
      · rfl
      · rfl
    rw [this, hpn]
  have hr := handle_inv cfg O s2 hs2
  have hf := handle_fixed cfg O s2
  have hrnext : (_handle_data_reception cfg O s2).1.next_seq_num
      = min ((_handle_data_reception cfg O s2).1.base_seq + cfg.N) cfg.total_packets := by
    rw [hf.2.1, hf.1]; exact hs2next
  have ha := acks_inv cfg now _ hr hrnext
  exact cto_inv cfg O now _ ha

theorem trace_succ (cfg : Cfg) (O : Nat → Bool) (sched : Nat → ℚ) (k : Nat) :
    trace cfg O sched (k + 1)
      = if loopGuard cfg sched k (trace cfg O sched k)
        then (tick cfg O (sched k) (trace cfg O sched k)).1
        else trace cfg O sched k := by
  have h : traceP cfg O sched (k + 1)
      = if loopGuard cfg sched k (trace cfg O sched k)
        then ((tick cfg O (sched k) (trace cfg O sched k)).1,
              traceLog cfg O sched k ++ (tick cfg O (sched k) (trace cfg O sched k)).2)
        else traceP cfg O sched k := rfl
  unfold trace
  rw [h, apply_ite Prod.fst]
  rfl

theorem traceLog_succ (cfg : Cfg) (O : Nat → Bool) (sched : Nat → ℚ) (k : Nat) :
    traceLog cfg O sched (k + 1)
      = if loopGuard cfg sched k (trace cfg O sched k)
        then traceLog cfg O sched k ++ (tick cfg O (sched k) (trace cfg O sched k)).2
        else traceLog cfg O sched k := by
  have h : traceP cfg O sched (k + 1)
      = if loopGuard cfg sched k (trace cfg O sched k)
        then ((tick cfg O (sched k) (trace cfg O sched k)).1,
              traceLog cfg O sched k ++ (tick cfg O (sched k) (trace cfg O sched k)).2)
        else traceP cfg O sched k := rfl
  show (traceP cfg O sched (k + 1)).2 = _
  rw [h, apply_ite Prod.snd]
  rfl

theorem trace_zero (cfg : Cfg) (O : Nat → Bool) (sched : Nat → ℚ) :
    trace cfg O sched 0 = { initState with last_ack_time := sched 0 } := rfl

theorem traceLog_zero (cfg : Cfg) (O : Nat → Bool) (sched : Nat → ℚ) :
    traceLog cfg O sched 0 = [] := rfl

theorem trace_inv (cfg : Cfg) (O : Nat → Bool) (sched : Nat → ℚ) (k : Nat) :
    ProtInv cfg (trace cfg O sched k) := by
  induction k with
  | zero => exact ProtInv_set_last cfg _ (ProtInv_init cfg)
  | succ k ih =>
    rw [trace_succ]
    split_ifs with h
    · exact tick_inv cfg O (sched k) _ ih
    · exact ih

theorem tick_expected_log (cfg : Cfg) (O : Nat → Bool) (now : ℚ) (s : SRPState) :
    s.expected_seq ≤ (tick cfg O now s).1.expected_seq ∧
    (tick cfg O now s).2 = List.range' s.expected_seq
      ((tick cfg O now s).1.expected_seq - s.expected_seq) := by
  rw [tick_fst, tick_snd]
  set s1 := (if now - s.last_ack_time > STALL_LIMIT then
      { _recover_from_stall cfg O now s with last_ack_time := now } else s) with hs1d
  have hs1e : s1.expected_seq = s.expected_seq := by
    rw [hs1d]; split_ifs with h
    · show (_recover_from_stall cfg O now s).expected_seq = s.expected_seq
      exact (stall_fixed cfg O now s).2.2.1
    · rfl
  set s2 := (if 0 < (_transmit_new_packets cfg O now s1).2
      then { (_transmit_new_packets cfg O now s1).1 with last_ack_time := now }
      else (_transmit_new_packets cfg O now s1).1) with hs2d
  have hs2e : s2.expected_seq = s.expected_seq := by
    have h2 := (tnp_fixed cfg O now s1).2.1
    rw [hs2d]
    split_ifs with h
    · show (_transmit_new_packets cfg O now s1).1.expected_seq = s.expected_seq
      rw [h2, hs1e]
    · rw [h2, hs1e]
  obtain ⟨he, hl⟩ := handle_expected_log cfg O s2
  have hce := (cto_fixed cfg O now
    (_process_acknowledgments now (_handle_data_reception cfg O s2).1)).2.2.1
  have hae := (acks_fixed now (_handle_data_reception cfg O s2).1).1
  rw [hce, hae]
  rw [hs2e] at he hl
  exact ⟨he, hl⟩

theorem traceLog_range' (cfg : Cfg) (O : Nat → Bool) (sched : Nat → ℚ) (k : Nat) :
    traceLog cfg O sched k = List.range' 0 (trace cfg O sched k).expected_seq := by
  induction k with
  | zero => rw [traceLog_zero, trace_zero]; rfl
  | succ k ih =>
    rw [traceLog_succ, trace_succ]
    split_ifs with h
    · obtain ⟨he, hl⟩ := tick_expected_log cfg O (sched k) (trace cfg O sched k)
      rw [ih, hl]
      have h0 : (0 : Nat) + 1 * (trace cfg O sched k).expected_seq
          = (trace cfg O sched k).expected_seq := by omega
      have happ := List.range'_append 0 (trace cfg O sched k).expected_seq
        ((tick cfg O (sched k) (trace cfg O sched k)).1.expected_seq
          - (trace cfg O sched k).expected_seq) 1
      rw [h0] at happ
      rw [happ]
      congr 1
      omega
    · exact ih

theorem stallStep_retries_other {O : Nat → Bool} {now : ℚ} {s : SRPState} {q q' : Nat}
    (h : q' ≠ q) :
    dictLookup (stallStep O now s q).packet_retries q'
      = dictLookup s.packet_retries q' := by
  unfold stallStep
  by_cases hq : q ∈ s.ack_received
  · rw [if_pos hq]
  · rw [if_neg hq, tp_retries, dictLookup_dictSet_ne _ _ h]

theorem stall_fold_retries_not_mem (O : Nat → Bool) (now : ℚ) (l : List Nat) :
    ∀ (s : SRPState) (q : Nat), q ∉ l →
      dictLookup ((l.foldl (stallStep O now) s)).packet_retries q
        = dictLookup s.packet_retries q := by
  induction l with
  | nil => intro s q _; rfl
  | cons a rest ih =>
    intro s q hq
    rw [List.foldl_cons]
    have hqa : q ≠ a := fun hc => hq (by simp [hc])
    rw [ih _ q (fun hc => hq (by simp [hc])), stallStep_retries_other hqa]

theorem stall_fold_retries (O : Nat → Bool) (now : ℚ) (l : List Nat) :
    ∀ (s : SRPState) (q : Nat), l.Nodup → q ∈ l → q ∉ s.ack_received →
      dictLookup ((l.foldl (stallStep O now) s)).packet_retries q
        = some ((dictLookup s.packet_retries q).getD 0 + 1) := by
  induction l with
  | nil => intro s q _ h; cases h
  | cons a rest ih =>
    intro s q hnd hq hqa
    rw [List.foldl_cons]
    rcases List.mem_cons.1 hq with rfl | hq2
    · have hq_not : q ∉ rest := (List.nodup_cons.1 hnd).1
      rw [stall_fold_retries_not_mem O now rest _ q hq_not]
      unfold stallStep
      rw [if_neg hqa, tp_retries, dictLookup_dictSet_self]
    · have ha_not : a ∉ rest := (List.nodup_cons.1 hnd).1
      have hqa2 : q ≠ a := fun hc => ha_not (hc ▸ hq2)
      have hacked : q ∉ (stallStep O now s a).ack_received := by
        rw [(stallStep_fields O now s a).2.2.2.2.1]; exact hqa
      rw [ih _ q (List.nodup_cons.1 hnd).2 hq2 hacked, stallStep_retries_other hqa2]

theorem trace_stable (cfg : Cfg) (O : Nat → Bool) (sched : Nat → ℚ)
    (hmono : ∀ i j, i ≤ j → sched i ≤ sched j) (j : Nat)
    (hj : ¬ loopGuard cfg sched j (trace cfg O sched j)) :
    ∀ m, trace cfg O sched (j + m) = trace cfg O sched j := by
  intro m
  induction m with
  | zero => rfl
  | succ m ih =>
    show trace cfg O sched ((j + m) + 1) = trace cfg O sched j
    rw [trace_succ, ih, if_neg]
    intro hg
    apply hj
    unfold loopGuard at hg ⊢
    obtain ⟨hg1, hg2⟩ := hg
    refine ⟨hg1, ?_⟩
    have := hmono j (j + m) (by omega)
    linarith

/-! ### Claims -/

/-- C2 (counterexample): with a channel that drops everything, the first
transmission attempt of sequence number 0 — issued by the send-new path on a fresh
protocol object — increments `total_transmissions` to 1 but starts no pending
timer at all, refuting the claim that a transmission the channel drops still
starts (or refreshes) a timer for that sequence number. -/
theorem c2_counterexample :
    (_transmit_new_packets ⟨1, 1⟩ (fun _ => false) 0 initState).1.transmission_count = 1 ∧
    dictLookup (_transmit_new_packets ⟨1, 1⟩ (fun _ => false) 0
      initState).1.packet_timers 0 = none ∧
    (_transmit_new_packets ⟨1, 1⟩ (fun _ => false) 0 initState).1.packet_timers = [] := by
  decide

/-- C2 (amended): every transmission attempt of a sequence number — all three
paths go through `transmit_packet` — increments `total_transmissions` by one and
bumps the retry counter of the attempted sequence number, in the loss case as
well; but whether a dropped unit gets a timer depends on the path: the send-new
loop body (`tnpStep`) and the stall-recovery loop body (`stallStep`) start (or
refresh) the timer only when the channel delivers the unit and leave
`packet_timers` unchanged on a drop, while the timeout-retransmission loop body
(`ctoStep`) restarts the timer of the retransmitted sequence number
unconditionally — delivered or dropped. -/
theorem c2_amended (cfg : Cfg) (O : Nat → Bool) (now : ℚ) (seq : Nat) (s : SRPState)
    (c : Nat) :
    (transmit_packet O now seq s).1.transmission_count = s.transmission_count + 1 ∧
    dictLookup (transmit_packet O now seq s).1.packet_retries seq
      = some ((dictLookup s.packet_retries seq).getD 0 + 1) ∧
    (transmit_packet O now seq s).2 = O s.rng ∧
    (seq ∉ s.ack_received →
      (tnpStep O now (s, c) seq).1.packet_timers
        = (if O s.rng then dictSet s.packet_timers seq now else s.packet_timers) ∧
      (tnpStep O now (s, c) seq).1.transmission_count = s.transmission_count + 1) ∧
    (seq ∉ s.ack_received →
      (stallStep O now s seq).packet_timers
        = (if O s.rng then dictSet s.packet_timers seq now else s.packet_timers) ∧
      (stallStep O now s seq).transmission_count = s.transmission_count + 1) ∧
    (seq ∉ s.ack_received ∧ seq < cfg.total_packets →
      (ctoStep cfg O now s seq).packet_timers = dictSet s.packet_timers seq now ∧
      (ctoStep cfg O now s seq).transmission_count = s.transmission_count + 1) := by
  refine ⟨tp_count O now seq s, ?_, tp_snd O now seq s, ?_, ?_, ?_⟩
  · rw [tp_retries, dictLookup_dictSet_self]
  · intro hna
    unfold tnpStep
    rw [if_neg hna]
    constructor
    · show (transmit_packet O now seq s).1.packet_timers = _
      exact tp_timers O now seq s
    · show (transmit_packet O now seq s).1.transmission_count = _
      exact tp_count O now seq s
  · intro hna
    unfold stallStep
    rw [if_neg hna]
    exact ⟨tp_timers O now seq s, tp_count O now seq s⟩
  · intro h
    unfold ctoStep
    rw [if_pos h]
    constructor
    · show dictSet (transmit_packet O now seq s).1.packet_timers seq now = _
      rw [tp_timers]
      by_cases hO : O s.rng
      · rw [if_pos hO, dictSet_dictSet]
      · rw [if_neg hO]
    · show (transmit_packet O now seq s).1.transmission_count = _
      exact tp_count O now seq s

/-- C2 (amended, witness): for sequence number 0 on the fresh state under an
all-dropping channel, a send-new drop and a stall-recovery drop leave
`packet_timers` unchanged, while a timeout retransmission drop still restarts
the timer of 0 at the current time. -/
theorem c2_amended_witness :
    (tnpStep (fun _ => false) (0 : ℚ) (initState, 0) 0).1.packet_timers
      = initState.packet_timers ∧
    (stallStep (fun _ => false) (0 : ℚ) initState 0).packet_timers
      = initState.packet_timers ∧
    (ctoStep ⟨1, 1⟩ (fun _ => false) (100 : ℚ) initState 0).packet_timers
      = dictSet initState.packet_timers 0 100 :=
  ⟨((c2_amended ⟨1, 1⟩ (fun _ => false) 0 0 initState 0).2.2.2.1 (by decide)).1,
   ((c2_amended ⟨1, 1⟩ (fun _ => false) 0 0 initState 0).2.2.2.2.1 (by decide)).1,
   ((c2_amended ⟨1, 1⟩ (fun _ => false) 100 0 initState 0).2.2.2.2.2 (by decide)).1⟩

/-- C3: processing an acknowledgment for the sequence number `seq` at the head of
the acknowledgment channel puts `seq` into `ack_received`, deletes its pending
timer and its retry counter, only ever enlarges `ack_received`, and advances
`base_seq` to exactly the smallest sequence number not in the new `ack_received`
that is at least the old `base_seq`. -/
theorem c3_on_ack (now : ℚ) (s : SRPState) (seq : Nat) (rest : List Nat)
    (hd : s.ack_channel = seq :: rest) :
    seq ∈ (_process_acknowledgments now s).ack_received ∧
    dictLookup (_process_acknowledgments now s).packet_timers seq = none ∧
    dictLookup (_process_acknowledgments now s).packet_retries seq = none ∧
    s.ack_received ⊆ (_process_acknowledgments now s).ack_received ∧
    s.base_seq ≤ (_process_acknowledgments now s).base_seq ∧
    (_process_acknowledgments now s).base_seq
      ∉ (_process_acknowledgments now s).ack_received ∧
    (∀ m, s.base_seq ≤ m → m < (_process_acknowledgments now s).base_seq →
      m ∈ (_process_acknowledgments now s).ack_received) := by
  simp only [_process_acknowledgments, hd]
  refine ⟨?_, ?_, ?_, ?_, ?_, ?_, ?_⟩
  · show seq ∈ insert seq s.ack_received
    exact Finset.mem_insert_self _ _
  · show dictLookup (dictDel s.packet_timers seq) seq = none
    exact dictLookup_dictDel_self _ _
  · show dictLookup (dictDel s.packet_retries seq) seq = none
    exact dictLookup_dictDel_self _ _
  · show s.ack_received ⊆ insert seq s.ack_received
    exact Finset.subset_insert _ _
  · show s.base_seq ≤ slideBase s.base_seq (insert seq s.ack_received)
    exact slideBase_le _ _
  · show slideBase s.base_seq (insert seq s.ack_received) ∉ insert seq s.ack_received
    exact slideBase_not_mem _ _
  · show ∀ m, s.base_seq ≤ m →
      m < slideBase s.base_seq (insert seq s.ack_received) →
      m ∈ insert seq s.ack_received
    exact slideBase_covered _ _

/-- C3 (witness): on a fresh state whose acknowledgment channel holds exactly the
acknowledgment for 0, processing it acknowledges 0, clears its timer, and slides
the base past it but not past the first unacknowledged number. -/
theorem c3_on_ack_witness :
    0 ∈ (_process_acknowledgments 0
      { initState with ack_channel := [0] }).ack_received ∧
    (_process_acknowledgments 0 { initState with ack_channel := [0] }).base_seq
      ∉ (_process_acknowledgments 0 { initState with ack_channel := [0] }).ack_received :=
  ⟨(c3_on_ack 0 { initState with ack_channel := [0] } 0 [] rfl).1,
   (c3_on_ack 0 { initState with ack_channel := [0] } 0 [] rfl).2.2.2.2.2.1⟩

/-- C4: at the start of every loop iteration of every run, every sequence number
in the receiver buffer lies in `[expected_seq, expected_seq + N - 1]` and
`expected_seq` itself is never left in the buffer (the drain runs before the
reception step returns); the complete delivery log of the run is exactly
`0, 1, ..., expected_seq - 1` in order — strictly increasing, no duplicates. -/
theorem c4_receiver_invariant (cfg : Cfg) (O : Nat → Bool) (sched : Nat → ℚ)
    (k : Nat) :
    (∀ q ∈ (trace cfg O sched k).receiver_window,
      (trace cfg O sched k).expected_seq ≤ q ∧
      (q : ℤ) ≤ ((trace cfg O sched k).expected_seq : ℤ) + cfg.N - 1) ∧
    (trace cfg O sched k).expected_seq ∉ (trace cfg O sched k).receiver_window ∧
    traceLog cfg O sched k = List.range' 0 (trace cfg O sched k).expected_seq ∧
    List.Pairwise (· < ·) (traceLog cfg O sched k) := by
  obtain h := trace_inv cfg O sched k
  refine ⟨h.buffer_in_window, h.expected_not_buffered, traceLog_range' cfg O sched k, ?_⟩
  rw [traceLog_range' cfg O sched k]
  exact List.pairwise_lt_range' _ _

/-- C4 (witness): the delivery log of a concrete lossy two-packet run is strictly
increasing with no duplicates. -/
theorem c4_receiver_invariant_witness :
    List.Pairwise (· < ·)
      (traceLog ⟨2, 2⟩ (fun n => n == 1 || n == 3) (fun k => (6/5) * k) 3) :=
  (c4_receiver_invariant ⟨2, 2⟩ (fun n => n == 1 || n == 3)
    (fun k => (6/5) * k) 3).2.2.2

/-- C5: at the start of every loop iteration of every run the sender window
invariant holds: `base_seq ≤ next_seq_num ≤ base_seq + N`, so never more than `N`
unacknowledged sequence numbers are outstanding; window size 1 degenerates to
stop-and-wait (`next_seq_num ≤ base_seq + 1`). -/
theorem c5_window_invariant (cfg : Cfg) (O : Nat → Bool) (sched : Nat → ℚ) (k : Nat) :
    (trace cfg O sched k).base_seq ≤ (trace cfg O sched k).next_seq_num ∧
    (trace cfg O sched k).next_seq_num ≤ (trace cfg O sched k).base_seq + cfg.N ∧
    (cfg.N = 1 →
      (trace cfg O sched k).next_seq_num ≤ (trace cfg O sched k).base_seq + 1) := by
  obtain h := trace_inv cfg O sched k
  exact ⟨h.base_le_next, h.next_le_window, fun h1 => h1 ▸ h.next_le_window⟩

/-- C5 (witness): for a concrete window-1 run the stop-and-wait bound holds after
one iteration. -/
theorem c5_window_invariant_witness :
    (trace ⟨1, 2⟩ (fun _ => true) (fun k => (k : ℚ) / 200) 1).next_seq_num
      ≤ (trace ⟨1, 2⟩ (fun _ => true) (fun k => (k : ℚ) / 200) 1).base_seq + 1 :=
  (c5_window_invariant ⟨1, 2⟩ (fun _ => true) (fun k => (k : ℚ) / 200) 1).2.2 rfl

/-- C7: the computed timeout is exactly `BASE_TIMEOUT * (7/5) ^ min retry_count 5`
with growth factor `7/5 > 1`; it is monotone in the retry count, bounded above by
`BASE_TIMEOUT * (7/5) ^ 5`, and every further transmission attempt of the same
sequence number (which bumps its retry counter) can only keep or raise the next
computed timeout. -/
theorem c7_timeout_formula (retries retries' : List (Nat × Nat)) (seq : Nat)
    (h : (dictLookup retries seq).getD 0 ≤ (dictLookup retries' seq).getD 0) :
    calculate_timeout retries seq
      = BASE_TIMEOUT * (7/5) ^ min ((dictLookup retries seq).getD 0) 5 ∧
    (1 : ℚ) < 7/5 ∧
    calculate_timeout retries seq ≤ calculate_timeout retries' seq ∧
    calculate_timeout retries seq ≤ BASE_TIMEOUT * (7/5) ^ 5 ∧
    (∀ (O : Nat → Bool) (now : ℚ) (s : SRPState),
      calculate_timeout s.packet_retries seq
        ≤ calculate_timeout ((transmit_packet O now seq s).1).packet_retries seq) := by
  have hmono : ∀ a b : Nat, a ≤ b →
      BASE_TIMEOUT * (7/5 : ℚ) ^ a ≤ BASE_TIMEOUT * (7/5) ^ b := by
    intro a b hab
    have hpow : (7/5 : ℚ) ^ a ≤ (7/5) ^ b :=
      pow_le_pow_right₀ (by norm_num) hab
    have hb : (0 : ℚ) ≤ BASE_TIMEOUT := by norm_num [BASE_TIMEOUT]
    exact mul_le_mul_of_nonneg_left hpow hb
  refine ⟨rfl, by norm_num, ?_, ?_, ?_⟩
  · unfold calculate_timeout
    exact hmono _ _ (by omega)
  · unfold calculate_timeout
    exact hmono _ _ (min_le_right _ _)
  · intro O now s
    unfold calculate_timeout
    rw [tp_retries, dictLookup_dictSet_self]
    simp only [Option.getD_some]
    exact hmono _ _ (by omega)

/-- C7 (witness): a concrete retry-count increase (0 to 3) does not decrease the
computed timeout, and the timeout at retry count 0 respects the global bound. -/
theorem c7_timeout_formula_witness :
    calculate_timeout [] 0 ≤ calculate_timeout [(0, 3)] 0 ∧
    calculate_timeout [] 0 ≤ BASE_TIMEOUT * (7/5) ^ 5 :=
  ⟨(c7_timeout_formula [] [(0, 3)] 0 (by decide)).2.2.1,
   (c7_timeout_formula [] [(0, 3)] 0 (by decide)).2.2.2.1⟩

/-- C10: at the start of every loop iteration of every run the window base never
passes the receiver, `base_seq ≤ expected_seq`; hence the value returned by
`execute_protocol` (the final `base_seq`) never exceeds the receiver's in-order
delivery point nor the number of sequence numbers actually delivered. -/
theorem c10_base_le_expected (cfg : Cfg) (O : Nat → Bool) (sched : Nat → ℚ)
    (k fuel : Nat) :
    (trace cfg O sched k).base_seq ≤ (trace cfg O sched k).expected_seq ∧
    (execute_protocol cfg O sched fuel).2 ≤ (trace cfg O sched fuel).expected_seq ∧
    (execute_protocol cfg O sched fuel).2 ≤ (traceLog cfg O sched fuel).length := by
  refine ⟨(trace_inv cfg O sched k).base_le_expected, ?_, ?_⟩
  · show (trace cfg O sched fuel).base_seq ≤ _
    exact (trace_inv cfg O sched fuel).base_le_expected
  · show (trace cfg O sched fuel).base_seq ≤ _
    rw [traceLog_range' cfg O sched fuel, List.length_range']
    exact (trace_inv cfg O sched fuel).base_le_expected

/-- C6 (counterexample): at a protocol state satisfying the run invariant
(window 2, two packets; packet 1 buffered out of order, packet 0 still missing, a
retransmitted copy of 1 at the head of the data channel), the arriving sequence
number 1 is inside the receiver window and already buffered, yet
`_handle_data_reception` sends no acknowledgment: the acknowledgment channel
stays empty and not even a random draw is consumed, although the channel oracle
delivers everything — refuting the claim that such an arrival is acknowledged
again. -/
theorem c6_counterexample :
    ProtInv ⟨2, 2⟩
      { base_seq := 0, next_seq_num := 2, packet_timers := [(1, 0)],
        ack_received := ∅, transmission_count := 3, last_ack_time := 0,
        packet_retries := [(0, 1), (1, 2)], expected_seq := 0,
        receiver_window := {1}, data_channel := [1], ack_channel := [],
        finished := false, rng := 4 } ∧
    (1 ∈ ({1} : Finset Nat)) ∧
    ((0 : ℤ) ≤ 1 ∧ (1 : ℤ) ≤ min ((0 : ℤ) + 2 - 1) ((2 : ℤ) - 1)) ∧
    (_handle_data_reception ⟨2, 2⟩ (fun _ => true)
      { base_seq := 0, next_seq_num := 2, packet_timers := [(1, 0)],
        ack_received := ∅, transmission_count := 3, last_ack_time := 0,
        packet_retries := [(0, 1), (1, 2)], expected_seq := 0,
        receiver_window := {1}, data_channel := [1], ack_channel := [],
        finished := false, rng := 4 }).1.ack_channel = [] ∧
    (_handle_data_reception ⟨2, 2⟩ (fun _ => true)
      { base_seq := 0, next_seq_num := 2, packet_timers := [(1, 0)],
        ack_received := ∅, transmission_count := 3, last_ack_time := 0,
        packet_retries := [(0, 1), (1, 2)], expected_seq := 0,
        receiver_window := {1}, data_channel := [1], ack_channel := [],
        finished := false, rng := 4 }).1.rng = 4 ∧
    (_handle_data_reception ⟨2, 2⟩ (fun _ => true)
      { base_seq := 0, next_seq_num := 2, packet_timers := [(1, 0)],
        ack_received := ∅, transmission_count := 3, last_ack_time := 0,
        packet_retries := [(0, 1), (1, 2)], expected_seq := 0,
        receiver_window := {1}, data_channel := [1], ack_channel := [],
        finished := false, rng := 4 }).1.receiver_window = {1} := by
  refine ⟨⟨?_, ?_, ?_, ?_, ?_, ?_, ?_, ?_, ?_, ?_, ?_, ?_⟩, ?_, ?_, ?_, ?_, ?_⟩ <;>
    decide

/-- C6 (amended): for a data arrival `seq` at the head of the data channel:
if `seq` is below `expected_seq` (an already-delivered duplicate), the buffer and
`expected_seq` are unchanged and an acknowledgment for `seq` is transmitted over
the lossy acknowledgment channel (enqueued exactly when the draw delivers it);
if `seq` is above the window, the receiver state is unchanged apart from
consuming the packet, no acknowledgment is attempted and no error is raised; if
`seq` is in window and already buffered, it is neither re-buffered nor
re-acknowledged — no acknowledgment is attempted, the buffer gains nothing new,
and only the in-order delivery drain runs, so nothing is delivered twice. -/
theorem c6_amended (cfg : Cfg) (O : Nat → Bool) (s : SRPState) (seq : Nat)
    (rest : List Nat) (hd : s.data_channel = seq :: rest) :
    (seq < s.expected_seq →
      (_handle_data_reception cfg O s).1.expected_seq = s.expected_seq ∧
      (_handle_data_reception cfg O s).1.receiver_window = s.receiver_window ∧
      (_handle_data_reception cfg O s).1.ack_channel
        = s.ack_channel ++ (if O s.rng then [seq] else []) ∧
      (_handle_data_reception cfg O s).1.rng = s.rng + 1 ∧
      (_handle_data_reception cfg O s).2 = []) ∧
    ((s.expected_seq ≤ seq ∧
        ¬ (seq : ℤ) ≤ min ((s.expected_seq : ℤ) + cfg.N - 1)
          ((cfg.total_packets : ℤ) - 1)) →
      _handle_data_reception cfg O s = ({ s with data_channel := rest }, [])) ∧
    ((s.expected_seq ≤ seq ∧
        (seq : ℤ) ≤ min ((s.expected_seq : ℤ) + cfg.N - 1)
          ((cfg.total_packets : ℤ) - 1) ∧
        seq ∈ s.receiver_window) →
      (_handle_data_reception cfg O s).1.ack_channel = s.ack_channel ∧
      (_handle_data_reception cfg O s).1.rng = s.rng ∧
      (∀ q ∈ (_handle_data_reception cfg O s).1.receiver_window,
        q ∈ s.receiver_window) ∧
      s.expected_seq ≤ (_handle_data_reception cfg O s).1.expected_seq) := by
  obtain ⟨d1, d2, d3, d4⟩ := drain_spec s.expected_seq s.receiver_window
  refine ⟨?_, ?_, ?_⟩
  · -- the arrival is an already-delivered duplicate
    intro hlt
    have hnw : ¬ ((s.expected_seq : ℤ) ≤ (seq : ℤ) ∧
        (seq : ℤ) ≤ min ((s.expected_seq : ℤ) + cfg.N - 1)
          ((cfg.total_packets : ℤ) - 1)) := by
      rintro ⟨h1, -⟩
      omega
    have hho : (seq : ℤ) < (s.expected_seq : ℤ) := by exact_mod_cast hlt
    simp only [_handle_data_reception, hd, if_neg hnw, if_pos hho,
      send_acknowledgment_eq]
    by_cases hO : O s.rng <;> simp [hO]
  · -- the arrival is above the window
    rintro ⟨hge, hnot⟩
    have hnw : ¬ ((s.expected_seq : ℤ) ≤ (seq : ℤ) ∧
        (seq : ℤ) ≤ min ((s.expected_seq : ℤ) + cfg.N - 1)
          ((cfg.total_packets : ℤ) - 1)) := by
      rintro ⟨-, h2⟩
      exact hnot h2
    have hho : ¬ (seq : ℤ) < (s.expected_seq : ℤ) := by
      have : (s.expected_seq : ℤ) ≤ (seq : ℤ) := by exact_mod_cast hge
      omega
    simp only [_handle_data_reception, hd, if_neg hnw, if_neg hho]
  · -- the arrival is in window and already buffered
    rintro ⟨hge, hin, hbuf⟩
    have hwc : (s.expected_seq : ℤ) ≤ (seq : ℤ) ∧
        (seq : ℤ) ≤ min ((s.expected_seq : ℤ) + cfg.N - 1)
          ((cfg.total_packets : ℤ) - 1) := ⟨by exact_mod_cast hge, hin⟩
    simp only [_handle_data_reception, hd, if_pos hwc, if_pos hbuf]
    refine ⟨by trivial, by trivial, ?_, d1⟩
    intro q hq
    exact ((d3 q).1 hq).1

/-- C6 (witness): at the concrete invariant-satisfying state of the
counterexample, the amended in-window-and-buffered case applies: no
acknowledgment is enqueued, no draw is consumed, nothing is re-buffered, and the
delivery point does not move backwards. -/
theorem c6_amended_witness :
    (_handle_data_reception ⟨2, 2⟩ (fun _ => true)
      { base_seq := 0, next_seq_num := 2, packet_timers := [(1, 0)],
        ack_received := ∅, transmission_count := 3, last_ack_time := 0,
        packet_retries := [(0, 1), (1, 2)], expected_seq := 0,
        receiver_window := {1}, data_channel := [1], ack_channel := [],
        finished := false, rng := 4 }).1.ack_channel = [] ∧
    (_handle_data_reception ⟨2, 2⟩ (fun _ => true)
      { base_seq := 0, next_seq_num := 2, packet_timers := [(1, 0)],
        ack_received := ∅, transmission_count := 3, last_ack_time := 0,
        packet_retries := [(0, 1), (1, 2)], expected_seq := 0,
        receiver_window := {1}, data_channel := [1], ack_channel := [],
        finished := false, rng := 4 }).1.rng = 4 := by
  have h := (c6_amended ⟨2, 2⟩ (fun _ => true)
    { base_seq := 0, next_seq_num := 2, packet_timers := [(1, 0)],
      ack_received := ∅, transmission_count := 3, last_ack_time := 0,
      packet_retries := [(0, 1), (1, 2)], expected_seq := 0,
      receiver_window := {1}, data_channel := [1], ack_channel := [],
      finished := false, rng := 4 } 1 [] rfl).2.2
    ⟨by decide, by decide, by decide⟩
  exact ⟨h.1, h.2.1⟩

/-- C8: across every operation, `base_seq`, `next_seq_num` and `expected_seq`
never decrease — sending new packets only raises `next_seq_num`, data reception
only raises `expected_seq`, acknowledgment processing only raises `base_seq`, and
the timeout check changes none of the three — with the single exception of
`_recover_from_stall`, which resets `next_seq_num` down to exactly the current
`base_seq` (never below it) while also retransmitting (bumping the retry counter
of) every not-yet-acknowledged sequence number in `[base_seq, base_seq + N)`. -/
theorem c8_monotonicity (cfg : Cfg) (O : Nat → Bool) (now : ℚ) (s : SRPState)
    (hbn : s.base_seq ≤ s.next_seq_num) :
    (s.next_seq_num ≤ (_transmit_new_packets cfg O now s).1.next_seq_num ∧
     (_transmit_new_packets cfg O now s).1.base_seq = s.base_seq ∧
     (_transmit_new_packets cfg O now s).1.expected_seq = s.expected_seq) ∧
    ((_handle_data_reception cfg O s).1.base_seq = s.base_seq ∧
     (_handle_data_reception cfg O s).1.next_seq_num = s.next_seq_num ∧
     s.expected_seq ≤ (_handle_data_reception cfg O s).1.expected_seq) ∧
    (s.base_seq ≤ (_process_acknowledgments now s).base_seq ∧
     (_process_acknowledgments now s).next_seq_num = s.next_seq_num ∧
     (_process_acknowledgments now s).expected_seq = s.expected_seq) ∧
    ((_check_timeouts cfg O now s).base_seq = s.base_seq ∧
     (_check_timeouts cfg O now s).next_seq_num = s.next_seq_num ∧
     (_check_timeouts cfg O now s).expected_seq = s.expected_seq) ∧
    ((_recover_from_stall cfg O now s).next_seq_num = s.base_seq ∧
     (_recover_from_stall cfg O now s).next_seq_num ≤ s.next_seq_num ∧
     (_recover_from_stall cfg O now s).base_seq = s.base_seq ∧
     (_recover_from_stall cfg O now s).expected_seq = s.expected_seq ∧
     (∀ q, q < cfg.total_packets → s.base_seq ≤ q → q < s.base_seq + cfg.N →
       q ∉ s.ack_received →
       dictLookup (_recover_from_stall cfg O now s).packet_retries q
         = some ((dictLookup s.packet_retries q).getD 0 + 1))) := by
  obtain ⟨t1, t2, t3, t4, t5, t6, t7⟩ := tnp_fixed cfg O now s
  obtain ⟨g1, g2, g3, g4, g5, g6, g7, g8⟩ := handle_fixed cfg O s
  obtain ⟨a1, a2, a3, a4, a5, a6, a7, a8⟩ := acks_fixed now s
  obtain ⟨c1, c2, c3, c4, c5, c6, c7, c8⟩ := cto_fixed cfg O now s
  obtain ⟨r1, r2, r3, r4, r5, r6, r7, r8⟩ := stall_fixed cfg O now s
  refine ⟨⟨?_, t1, t2⟩, ⟨g1, g2, (handle_expected_log cfg O s).1⟩, ⟨a7, a8, a1⟩,
    ⟨c1, c2, c3⟩, ⟨r2, ?_, r1, r3, ?_⟩⟩
  · rw [tnp_next_eq]; omega
  · rw [r2]; exact hbn
  · intro q hqT hq1 hq2 hq3
    unfold _recover_from_stall
    apply stall_fold_retries
    · exact List.nodup_range' _ _
    · rw [List.mem_range'_1]
      refine ⟨?_, ?_⟩
      · show s.base_seq ≤ q
        exact hq1
      · show q < s.base_seq + (min (s.base_seq + cfg.N) cfg.total_packets - s.base_seq)
        omega
    · show q ∉ s.ack_received
      exact hq3

/-- C8 (witness): on a fresh state the reset-and-retransmit characterization of
stall recovery applies to sequence number 0: its retry counter is bumped to 1. -/
theorem c8_monotonicity_witness :
    dictLookup (_recover_from_stall ⟨1, 1⟩ (fun _ => false) 0
      initState).packet_retries 0 = some 1 := by
  have h := (c8_monotonicity ⟨1, 1⟩ (fun _ => false) 0 initState
    (by decide)).2.2.2.2.2.2.2.2 0 (by decide) (by decide) (by decide) (by decide)
  exact h

/-- C9: under any oracle, for any monotone schedule whose elapsed time reaches the
25-second budget within the available iterations, the loop stops at some
iteration `j`: the guard is false there — the base has reached `total_packets` or
the deadline has elapsed — the state never changes afterwards, `execute_protocol`
returns the `base_seq` reached at that point (the delivered count so far, with no
exception path in the model), and its completion flag is true exactly when
`base_seq = total_packets`. -/
theorem c9_termination (cfg : Cfg) (O : Nat → Bool) (sched : Nat → ℚ) (fuel : Nat)
    (hmono : ∀ i j, i ≤ j → sched i ≤ sched j)
    (hstop : 25 ≤ sched fuel - sched 0) :
    ∃ j ≤ fuel,
      ¬ loopGuard cfg sched j (trace cfg O sched j) ∧
      ((trace cfg O sched j).base_seq ≥ cfg.total_packets ∨
        25 ≤ sched j - sched 0) ∧
      trace cfg O sched fuel = trace cfg O sched j ∧
      (execute_protocol cfg O sched fuel).2 = (trace cfg O sched j).base_seq ∧
      ((execute_protocol cfg O sched fuel).1.finished = true ↔
        (trace cfg O sched j).base_seq = cfg.total_packets) ∧
      (trace cfg O sched j).base_seq ≤ cfg.total_packets := by
  have hPfuel : ¬ loopGuard cfg sched fuel (trace cfg O sched fuel) := by
    rintro ⟨-, h2⟩
    linarith
  have hex : ∃ j, ¬ loopGuard cfg sched j (trace cfg O sched j) := ⟨fuel, hPfuel⟩
  have hjle : Nat.find hex ≤ fuel := Nat.find_min' hex hPfuel
  have hjspec : ¬ loopGuard cfg sched (Nat.find hex)
      (trace cfg O sched (Nat.find hex)) := Nat.find_spec hex
  have hstable : trace cfg O sched fuel = trace cfg O sched (Nat.find hex) := by
    have h := trace_stable cfg O sched hmono (Nat.find hex) hjspec (fuel - Nat.find hex)
    rw [show Nat.find hex + (fuel - Nat.find hex) = fuel by omega] at h
    exact h
  have hbT : (trace cfg O sched (Nat.find hex)).base_seq ≤ cfg.total_packets := by
    have h := trace_inv cfg O sched (Nat.find hex)
    have h1 := h.base_le_next
    have h2 := h.next_le_total
    omega
  refine ⟨Nat.find hex, hjle, hjspec, ?_, hstable, ?_, ?_, hbT⟩
  · by_cases hA : (trace cfg O sched (Nat.find hex)).base_seq < cfg.total_packets
    · right
      by_contra hB
      exact hjspec ⟨hA, by linarith⟩
    · left
      omega
  · show (trace cfg O sched fuel).base_seq = _
    rw [hstable]
  · show decide (cfg.total_packets ≤ (trace cfg O sched fuel).base_seq) = true ↔ _
    rw [hstable]
    constructor
    · intro h
      have := of_decide_eq_true h
      omega
    · intro h
      exact decide_eq_true (by omega)

/-- C9 (witness): with every unit dropped and one simulated second per iteration,
the one-packet run stops by iteration 26 with the deadline elapsed, reporting the
base it reached without completing. -/
theorem c9_termination_witness :
    ∃ j ≤ 26,
      ¬ loopGuard ⟨1, 1⟩ (fun k => (k : ℚ)) j
        (trace ⟨1, 1⟩ (fun _ => false) (fun k => (k : ℚ)) j) ∧
      ((trace ⟨1, 1⟩ (fun _ => false) (fun k => (k : ℚ)) j).base_seq ≥ 1 ∨
        25 ≤ ((j : ℚ)) - ((0 : Nat) : ℚ)) ∧
      trace ⟨1, 1⟩ (fun _ => false) (fun k => (k : ℚ)) 26
        = trace ⟨1, 1⟩ (fun _ => false) (fun k => (k : ℚ)) j ∧
      (execute_protocol ⟨1, 1⟩ (fun _ => false) (fun k => (k : ℚ)) 26).2
        = (trace ⟨1, 1⟩ (fun _ => false) (fun k => (k : ℚ)) j).base_seq ∧
      ((execute_protocol ⟨1, 1⟩ (fun _ => false) (fun k => (k : ℚ)) 26).1.finished = true ↔
        (trace ⟨1, 1⟩ (fun _ => false) (fun k => (k : ℚ)) j).base_seq = 1) ∧
      (trace ⟨1, 1⟩ (fun _ => false) (fun k => (k : ℚ)) j).base_seq ≤ 1 :=
  c9_termination ⟨1, 1⟩ (fun _ => false) (fun k => (k : ℚ)) 26
    (fun i j h => by simp only []; exact_mod_cast h) (by norm_num)

/-! ### Closed forms for the loss-free steady state -/

theorem dictLookup_map_range' {α : Type} (g : Nat → α) :
    ∀ (n a k : Nat),
      dictLookup ((List.range' a n).map (fun q => (q, g q))) k
        = if a ≤ k ∧ k < a + n then some (g k) else none := by
  intro n
  induction n with
  | zero =>
    intro a k
    rw [if_neg (by omega)]
    rfl
  | succ n ih =>
    intro a k
    rw [List.range'_succ, List.map_cons]
    by_cases hk : a = k
    · subst hk
      rw [if_pos (show a ≤ a ∧ a < a + (n + 1) from ⟨le_rfl, by omega⟩)]
      simp [dictLookup]
    · simp only [dictLookup, if_neg hk]
      rw [ih (a + 1) k]
      by_cases h2 : a + 1 ≤ k ∧ k < a + 1 + n
      · rw [if_pos h2,
          if_pos (show a ≤ k ∧ k < a + (n + 1) from ⟨by omega, by omega⟩)]
      · have hcond : ¬ (a ≤ k ∧ k < a + (n + 1)) := by
          rintro ⟨hx, hy⟩
          exact h2 ⟨by omega, by omega⟩
        rw [if_neg h2, if_neg hcond]

theorem map_range'_fresh {α : Type} (g : Nat → α) {n a k : Nat}
    (hk : k < a ∨ a + n ≤ k) :
    ∀ p ∈ (List.range' a n).map (fun q => (q, g q)), p.1 ≠ k := by
  intro p hp
  obtain ⟨q, hq, rfl⟩ := List.mem_map.1 hp
  rw [List.mem_range'_1] at hq
  simp only []
  omega

theorem tnp_fold_closed (O : Nat → Bool) (now : ℚ) (hO : ∀ n, O n = true) :
    ∀ (n a : Nat) (s : SRPState) (c : Nat),
      (∀ q, a ≤ q → q < a + n → q ∉ s.ack_received) →
      (∀ q, a ≤ q → q < a + n → dictLookup s.packet_retries q = none) →
      (∀ q, a ≤ q → q < a + n → ∀ p ∈ s.packet_timers, p.1 ≠ q) →
      (List.range' a n).foldl (tnpStep O now) (s, c)
        = ({ s with
              next_seq_num := (if n = 0 then s.next_seq_num else a + n),
              transmission_count := s.transmission_count + n,
              rng := s.rng + n,
              data_channel := s.data_channel ++ List.range' a n,
              packet_timers := s.packet_timers
                ++ (List.range' a n).map (fun q => (q, now)),
              packet_retries := s.packet_retries
                ++ (List.range' a n).map (fun q => (q, 1)) }, c + n) := by
  intro n
  induction n with
  | zero =>
    intro a s c _ _ _
    simp
  | succ n ih =>
    intro a s c hack hret htim
    rw [List.range'_succ, List.foldl_cons]
    have hstep : tnpStep O now (s, c) a
        = ({ s with
              next_seq_num := a + 1,
              transmission_count := s.transmission_count + 1,
              rng := s.rng + 1,
              data_channel := s.data_channel ++ [a],
              packet_timers := dictSet s.packet_timers a now,
              packet_retries := dictSet s.packet_retries a 1 }, c + 1) := by
      unfold tnpStep
      rw [if_neg (by exact hack a (by omega) (by omega))]
      rw [transmit_packet_eq]
      rw [hret a (by omega) (by omega)]
      simp [hO]
    rw [hstep]
    rw [ih (a + 1) _ (c + 1)
      (by intro q h1 h2; exact hack q (by omega) (by omega))
      (by
        intro q h1 h2
        show dictLookup (dictSet s.packet_retries a 1) q = none
        rw [dictLookup_dictSet_ne _ _ (by omega)]
        exact hret q (by omega) (by omega))
      (by
        intro q h1 h2 p hp
        rcases mem_dictSet hp with h | h
        · rw [h]; simp only []; omega
        · exact htim q (by omega) (by omega) p h)]
    have hset_t : dictSet s.packet_timers a now = s.packet_timers ++ [(a, now)] :=
      dictSet_append_of_fresh _ _ _
        (fun p hp => htim a (by omega) (by omega) p hp)
    have hset_r : dictSet s.packet_retries a 1 = s.packet_retries ++ [(a, 1)] := by
      apply dictSet_append_of_fresh
      intro p hp
      exact dictLookup_none_fresh _ _ (hret a (by omega) (by omega)) p hp
    rw [hset_t, hset_r]
    rw [Prod.mk.injEq]
    constructor
    · rw [SRPState.mk.injEq]
      refine ⟨rfl, ?_, ?_, rfl, ?_, rfl, ?_, rfl, rfl, ?_, rfl, rfl, ?_⟩
      · show (if n = 0 then a + 1 else a + 1 + n)
            = if n + 1 = 0 then s.next_seq_num else a + (n + 1)
        rw [if_neg (show ¬ n + 1 = 0 by omega)]
        split <;> omega
      · show (s.packet_timers ++ [(a, now)])
            ++ (List.range' (a + 1) n).map (fun q => (q, now))
            = s.packet_timers ++ (List.range' a (n + 1)).map (fun q => (q, now))
        rw [List.append_assoc, List.range'_succ, List.map_cons]
        rfl
      · show s.transmission_count + 1 + n = s.transmission_count + (n + 1)
        omega
      · show (s.packet_retries ++ [(a, 1)])
            ++ (List.range' (a + 1) n).map (fun q => (q, 1))
            = s.packet_retries ++ (List.range' a (n + 1)).map (fun q => (q, 1))
        rw [List.append_assoc, List.range'_succ, List.map_cons]
        rfl
      · show (s.data_channel ++ [a]) ++ List.range' (a + 1) n
            = s.data_channel ++ List.range' a (n + 1)
        rw [List.append_assoc, List.range'_succ]
        rfl
      · show s.rng + 1 + n = s.rng + (n + 1)
        omega
    · show c + 1 + n = c + (n + 1)
      omega

/-- Adjacent `List.range'` blocks concatenate into one block. -/
theorem range'_append_one (s m n : Nat) :
    List.range' s m ++ List.range' (s + m) n = List.range' s (m + n) := by
  have h := List.range'_append s m n 1
  simp only [one_mul] at h
  rw [Nat.add_comm m n]
  exact h

/-- Deleting the first key of a range-keyed association list drops exactly its head. -/
theorem dictDel_map_range'_head {α : Type} (g : Nat → α) (b n : Nat) :
    dictDel ((List.range' b (n + 1)).map (fun q => (q, g q))) b
      = (List.range' (b + 1) n).map (fun q => (q, g q)) := by
  unfold dictDel
  rw [List.range'_succ, List.map_cons]
  rw [List.filter_cons_of_neg (by simp)]
  apply List.filter_eq_self.2
  intro p hp
  obtain ⟨q, hq, rfl⟩ := List.mem_map.1 hp
  rw [List.mem_range'_1] at hq
  simp only [bne_iff_ne, ne_eq]
  omega

/-- The delivery drain on a buffer holding exactly the expected number delivers it and stops. -/
theorem drain_singleton (e : Nat) : drain e {e} = (e + 1, ∅, [e]) := by
  show drainGo ({e} : Finset Nat).card e {e} = (e + 1, ∅, [e])
  rw [Finset.card_singleton]
  simp [drainGo, Finset.erase_singleton]

/-- When exactly the numbers `0 .. b` are acknowledged, the slide from `b` stops at `b + 1`. -/
theorem slideBase_range (b : Nat) : slideBase b (Finset.range (b + 1)) = b + 1 := by
  have h1 : slideBase b (Finset.range (b + 1)) ≤ b + 1 :=
    slideBase_le_of (by omega) (by simp)
  have h2 := slideBase_not_mem b (Finset.range (b + 1))
  have h3 := slideBase_le b (Finset.range (b + 1))
  by_contra hne
  exact h2 (Finset.mem_range.2 (by omega))

/-- When no timer has exceeded its adaptive timeout, `_check_timeouts` is the identity. -/
theorem cto_no_expired (cfg : Cfg) (O : Nat → Bool) (now : ℚ) (s : SRPState)
    (h : ∀ p ∈ s.packet_timers,
      ¬ (now - p.2 > calculate_timeout s.packet_retries p.1)) :
    _check_timeouts cfg O now s = s := by
  unfold _check_timeouts
  rw [List.filter_eq_nil_iff.2 (by intro p hp; simpa using h p hp)]
  rfl

/-- Loss-free steady state, send phase: from `stateB b` the send loop transmits exactly
the fresh window slice and tops the in-flight window up to `min (b + N) total_packets`. -/
theorem tnp_phase (cfg : Cfg) (O : Nat → Bool) (sched : Nat → ℚ) (b : Nat)
    (hO : ∀ k, O k = true) (hN : 1 ≤ cfg.N) (hb : 1 ≤ b) (hbT : b < cfg.total_packets) :
    _transmit_new_packets cfg O (sched b) (stateB cfg sched b)
      = ({ base_seq := b,
           next_seq_num := min (b + cfg.N) cfg.total_packets,
           packet_timers := (List.range' b (min (b + cfg.N) cfg.total_packets - b)).map
             (fun q => (q, sched (sendTick cfg.N q))),
           ack_received := Finset.range b,
           transmission_count := min (b + cfg.N) cfg.total_packets,
           last_ack_time := sched (b - 1),
           packet_retries := (List.range' b (min (b + cfg.N) cfg.total_packets - b)).map
             (fun q => (q, 1)),
           expected_seq := b,
           receiver_window := ∅,
           data_channel := List.range' b (min (b + cfg.N) cfg.total_packets - b),
           ack_channel := [],
           finished := false,
           rng := min (b + cfg.N) cfg.total_packets + b },
         min (b + cfg.N) cfg.total_packets - min (b - 1 + cfg.N) cfg.total_packets) := by
  have hack : ∀ q, min (b - 1 + cfg.N) cfg.total_packets ≤ q →
      q < min (b - 1 + cfg.N) cfg.total_packets +
        (min (b + cfg.N) cfg.total_packets - min (b - 1 + cfg.N) cfg.total_packets) →
      q ∉ (stateB cfg sched b).ack_received := by
    intro q h1 h2
    show q ∉ Finset.range b
    simp only [Finset.mem_range]
    omega
  have hret : ∀ q, min (b - 1 + cfg.N) cfg.total_packets ≤ q →
      q < min (b - 1 + cfg.N) cfg.total_packets +
        (min (b + cfg.N) cfg.total_packets - min (b - 1 + cfg.N) cfg.total_packets) →
      dictLookup (stateB cfg sched b).packet_retries q = none := by
    intro q h1 h2
    show dictLookup ((List.range' b (min (b - 1 + cfg.N) cfg.total_packets - b)).map
        (fun q => (q, 1))) q = none
    rw [dictLookup_map_range']
    rw [if_neg (show ¬ (b ≤ q ∧
      q < b + (min (b - 1 + cfg.N) cfg.total_packets - b)) by omega)]
  have htimers : ∀ q, min (b - 1 + cfg.N) cfg.total_packets ≤ q →
      q < min (b - 1 + cfg.N) cfg.total_packets +
        (min (b + cfg.N) cfg.total_packets - min (b - 1 + cfg.N) cfg.total_packets) →
      ∀ p ∈ (stateB cfg sched b).packet_timers, p.1 ≠ q := by
    intro q h1 h2
    show ∀ p ∈ (List.range' b (min (b - 1 + cfg.N) cfg.total_packets - b)).map
        (fun q => (q, sched (sendTick cfg.N q))), p.1 ≠ q
    exact map_range'_fresh _ (by omega)
  have h := tnp_fold_closed O (sched b) hO
    (min (b + cfg.N) cfg.total_packets - min (b - 1 + cfg.N) cfg.total_packets)
    (min (b - 1 + cfg.N) cfg.total_packets) (stateB cfg sched b) 0 hack hret htimers
  unfold _transmit_new_packets
  show (List.range' (min (b - 1 + cfg.N) cfg.total_packets)
      (min (b + cfg.N) cfg.total_packets - min (b - 1 + cfg.N) cfg.total_packets)).foldl
      (tnpStep O (sched b)) (stateB cfg sched b, 0) = _
  rw [h]
  have hra := range'_append_one b (min (b - 1 + cfg.N) cfg.total_packets - b)
    (min (b + cfg.N) cfg.total_packets - min (b - 1 + cfg.N) cfg.total_packets)
  rw [show b + (min (b - 1 + cfg.N) cfg.total_packets - b)
      = min (b - 1 + cfg.N) cfg.total_packets from by omega] at hra
  rw [show min (b - 1 + cfg.N) cfg.total_packets - b +
      (min (b + cfg.N) cfg.total_packets - min (b - 1 + cfg.N) cfg.total_packets)
      = min (b + cfg.N) cfg.total_packets - b from by omega] at hra
  have hcg : (List.range' (min (b - 1 + cfg.N) cfg.total_packets)
      (min (b + cfg.N) cfg.total_packets - min (b - 1 + cfg.N) cfg.total_packets)).map
        (fun q => ((q, sched b) : Nat × ℚ))
      = (List.range' (min (b - 1 + cfg.N) cfg.total_packets)
      (min (b + cfg.N) cfg.total_packets - min (b - 1 + cfg.N) cfg.total_packets)).map
        (fun q => (q, sched (sendTick cfg.N q))) := by
    apply List.map_congr_left
    intro q hq
    rw [List.mem_range'_1] at hq
    have hq2 : sendTick cfg.N q = b := by unfold sendTick; omega
    rw [hq2]
  rw [Prod.mk.injEq]
  constructor
  · rw [SRPState.mk.injEq]
    refine ⟨rfl, ?_, ?_, rfl, ?_, rfl, ?_, rfl, rfl, ?_, rfl, rfl, ?_⟩
    · show (if (min (b + cfg.N) cfg.total_packets -
            min (b - 1 + cfg.N) cfg.total_packets) = 0
          then min (b - 1 + cfg.N) cfg.total_packets
          else min (b - 1 + cfg.N) cfg.total_packets +
            (min (b + cfg.N) cfg.total_packets -
              min (b - 1 + cfg.N) cfg.total_packets))
        = min (b + cfg.N) cfg.total_packets
      split <;> omega
    · show (List.range' b (min (b - 1 + cfg.N) cfg.total_packets - b)).map
          (fun q => (q, sched (sendTick cfg.N q)))
        ++ (List.range' (min (b - 1 + cfg.N) cfg.total_packets)
            (min (b + cfg.N) cfg.total_packets -
              min (b - 1 + cfg.N) cfg.total_packets)).map
          (fun q => ((q, sched b) : Nat × ℚ))
        = (List.range' b (min (b + cfg.N) cfg.total_packets - b)).map
          (fun q => (q, sched (sendTick cfg.N q)))
      rw [hcg, ← List.map_append, hra]
    · show min (b - 1 + cfg.N) cfg.total_packets +
          (min (b + cfg.N) cfg.total_packets - min (b - 1 + cfg.N) cfg.total_packets)
        = min (b + cfg.N) cfg.total_packets
      omega
    · show (List.range' b (min (b - 1 + cfg.N) cfg.total_packets - b)).map
          (fun q => ((q, 1) : Nat × Nat))
        ++ (List.range' (min (b - 1 + cfg.N) cfg.total_packets)
            (min (b + cfg.N) cfg.total_packets -
              min (b - 1 + cfg.N) cfg.total_packets)).map
          (fun q => (q, 1))
        = (List.range' b (min (b + cfg.N) cfg.total_packets - b)).map
          (fun q => (q, 1))
      rw [← List.map_append, hra]
    · show List.range' b (min (b - 1 + cfg.N) cfg.total_packets - b)
        ++ List.range' (min (b - 1 + cfg.N) cfg.total_packets)
            (min (b + cfg.N) cfg.total_packets -
              min (b - 1 + cfg.N) cfg.total_packets)
        = List.range' b (min (b + cfg.N) cfg.total_packets - b)
      exact hra
    · show min (b - 1 + cfg.N) cfg.total_packets + b +
          (min (b + cfg.N) cfg.total_packets - min (b - 1 + cfg.N) cfg.total_packets)
        = min (b + cfg.N) cfg.total_packets + b
      omega
  · show 0 + (min (b + cfg.N) cfg.total_packets -
        min (b - 1 + cfg.N) cfg.total_packets)
      = min (b + cfg.N) cfg.total_packets - min (b - 1 + cfg.N) cfg.total_packets
    omega

/-- Loss-free steady state, receive phase: packet `b` arrives in order, is acknowledged
and immediately delivered by the drain. -/
theorem hdr_phase (cfg : Cfg) (O : Nat → Bool) (sched : Nat → ℚ) (b : Nat) (L : ℚ)
    (hO : ∀ k, O k = true) (hN : 1 ≤ cfg.N) (hbT : b < cfg.total_packets) :
    _handle_data_reception cfg O
      { base_seq := b,
        next_seq_num := min (b + cfg.N) cfg.total_packets,
        packet_timers := (List.range' b (min (b + cfg.N) cfg.total_packets - b)).map
          (fun q => (q, sched (sendTick cfg.N q))),
        ack_received := Finset.range b,
        transmission_count := min (b + cfg.N) cfg.total_packets,
        last_ack_time := L,
        packet_retries := (List.range' b (min (b + cfg.N) cfg.total_packets - b)).map
          (fun q => (q, 1)),
        expected_seq := b,
        receiver_window := ∅,
        data_channel := List.range' b (min (b + cfg.N) cfg.total_packets - b),
        ack_channel := [],
        finished := false,
        rng := min (b + cfg.N) cfg.total_packets + b }
      = ({ base_seq := b,
           next_seq_num := min (b + cfg.N) cfg.total_packets,
           packet_timers := (List.range' b (min (b + cfg.N) cfg.total_packets - b)).map
             (fun q => (q, sched (sendTick cfg.N q))),
           ack_received := Finset.range b,
           transmission_count := min (b + cfg.N) cfg.total_packets,
           last_ack_time := L,
           packet_retries := (List.range' b (min (b + cfg.N) cfg.total_packets - b)).map
             (fun q => (q, 1)),
           expected_seq := b + 1,
           receiver_window := ∅,
           data_channel := List.range' (b + 1)
             (min (b + cfg.N) cfg.total_packets - (b + 1)),
           ack_channel := [b],
           finished := false,
           rng := min (b + cfg.N) cfg.total_packets + b + 1 }, [b]) := by
  have hdata : List.range' b (min (b + cfg.N) cfg.total_packets - b)
      = b :: List.range' (b + 1) (min (b + cfg.N) cfg.total_packets - (b + 1)) := by
    rw [show min (b + cfg.N) cfg.total_packets - b
        = (min (b + cfg.N) cfg.total_packets - (b + 1)) + 1 from by omega,
      List.range'_succ]
  simp only [_handle_data_reception, hdata]
  split_ifs with h1 h2
  · exact absurd h2 (Finset.not_mem_empty b)
  · rw [send_acknowledgment_eq, hO, if_pos rfl]
    rw [insert_emptyc_eq, drain_singleton]
    rfl
  · exfalso
    apply h1
    constructor
    · exact le_rfl
    · omega
  · exfalso
    apply h1
    constructor
    · exact le_rfl
    · omega

/-- Loss-free steady state, acknowledgment phase: the acknowledgment for `b` slides the
window base to `b + 1`, completing the step to `stateB (b + 1)`. -/
theorem pak_phase (cfg : Cfg) (_O : Nat → Bool) (sched : Nat → ℚ) (b : Nat) (L : ℚ)
    (hN : 1 ≤ cfg.N) (_hb : 1 ≤ b) (hbT : b < cfg.total_packets) :
    _process_acknowledgments (sched b)
      { base_seq := b,
        next_seq_num := min (b + cfg.N) cfg.total_packets,
        packet_timers := (List.range' b (min (b + cfg.N) cfg.total_packets - b)).map
          (fun q => (q, sched (sendTick cfg.N q))),
        ack_received := Finset.range b,
        transmission_count := min (b + cfg.N) cfg.total_packets,
        last_ack_time := L,
        packet_retries := (List.range' b (min (b + cfg.N) cfg.total_packets - b)).map
          (fun q => (q, 1)),
        expected_seq := b + 1,
        receiver_window := ∅,
        data_channel := List.range' (b + 1)
          (min (b + cfg.N) cfg.total_packets - (b + 1)),
        ack_channel := [b],
        finished := false,
        rng := min (b + cfg.N) cfg.total_packets + b + 1 }
      = stateB cfg sched (b + 1) := by
  have hdel : min (b + cfg.N) cfg.total_packets - b
      = (min (b + cfg.N) cfg.total_packets - (b + 1)) + 1 := by omega
  rw [hdel]
  simp only [_process_acknowledgments]
  rw [dictDel_map_range'_head, dictDel_map_range'_head]
  rw [← Finset.range_succ, slideBase_range]
  rw [if_neg (show ¬ (b + 1 = b) from by omega)]
  rfl

/-- Loss-free steady state, timeout phase: under the timer-gap bound no in-flight timer
has expired, so `_check_timeouts` changes nothing. -/
theorem cto_phase (cfg : Cfg) (O : Nat → Bool) (sched : Nat → ℚ) (b : Nat)
    (hN : 1 ≤ cfg.N) (_hbT : b < cfg.total_packets)
    (htm : ∀ i j, i ≤ j → j - i ≤ cfg.N - 1 →
      sched j - sched i ≤ BASE_TIMEOUT * (7/5)) :
    _check_timeouts cfg O (sched b) (stateB cfg sched (b + 1))
      = stateB cfg sched (b + 1) := by
  apply cto_no_expired
  show ∀ p ∈ (List.range' (b + 1) (min (b + cfg.N) cfg.total_packets - (b + 1))).map
      (fun q => (q, sched (sendTick cfg.N q))),
    ¬ (sched b - p.2 > calculate_timeout
        ((List.range' (b + 1) (min (b + cfg.N) cfg.total_packets - (b + 1))).map
          (fun q => (q, 1))) p.1)
  intro p hp
  obtain ⟨q, hq, rfl⟩ := List.mem_map.1 hp
  rw [List.mem_range'_1] at hq
  rw [not_lt]
  show sched b - sched (sendTick cfg.N q) ≤ calculate_timeout
      ((List.range' (b + 1) (min (b + cfg.N) cfg.total_packets - (b + 1))).map
        (fun q => (q, 1))) q
  unfold calculate_timeout
  rw [dictLookup_map_range']
  rw [if_pos (show (b + 1) ≤ q ∧
      q < (b + 1) + (min (b + cfg.N) cfg.total_packets - (b + 1)) from ⟨hq.1, hq.2⟩)]
  show sched b - sched (sendTick cfg.N q) ≤ BASE_TIMEOUT * (7/5) ^ min 1 5
  rw [show min 1 5 = 1 from rfl, pow_one]
  exact htm (sendTick cfg.N q) b (by unfold sendTick; omega) (by unfold sendTick; omega)

/-- One loss-free loop iteration maps the steady state `stateB b` to `stateB (b + 1)`
and delivers exactly packet `b`. -/
theorem tick_steady (cfg : Cfg) (O : Nat → Bool) (sched : Nat → ℚ) (b : Nat)
    (hO : ∀ k, O k = true) (hN : 1 ≤ cfg.N) (hb : 1 ≤ b) (hbT : b < cfg.total_packets)
    (hst : sched b - sched (b - 1) ≤ STALL_LIMIT)
    (htm : ∀ i j, i ≤ j → j - i ≤ cfg.N - 1 →
      sched j - sched i ≤ BASE_TIMEOUT * (7/5)) :
    tick cfg O (sched b) (stateB cfg sched b) = (stateB cfg sched (b + 1), [b]) := by
  have hstall : ¬ (sched b - (stateB cfg sched b).last_ack_time > STALL_LIMIT) := by
    show ¬ (STALL_LIMIT < sched b - sched (b - 1))
    exact not_lt.2 hst
  have e0 : (if sched b - (stateB cfg sched b).last_ack_time > STALL_LIMIT then
        { _recover_from_stall cfg O (sched b) (stateB cfg sched b) with
            last_ack_time := sched b }
      else stateB cfg sched b) = stateB cfg sched b := if_neg hstall
  have e1 := tnp_phase cfg O sched b hO hN hb hbT
  have e1a : (_transmit_new_packets cfg O (sched b) (stateB cfg sched b)).1
      = { base_seq := b,
          next_seq_num := min (b + cfg.N) cfg.total_packets,
          packet_timers := (List.range' b (min (b + cfg.N) cfg.total_packets - b)).map
            (fun q => (q, sched (sendTick cfg.N q))),
          ack_received := Finset.range b,
          transmission_count := min (b + cfg.N) cfg.total_packets,
          last_ack_time := sched (b - 1),
          packet_retries := (List.range' b (min (b + cfg.N) cfg.total_packets - b)).map
            (fun q => (q, 1)),
          expected_seq := b,
          receiver_window := ∅,
          data_channel := List.range' b (min (b + cfg.N) cfg.total_packets - b),
          ack_channel := [],
          finished := false,
          rng := min (b + cfg.N) cfg.total_packets + b } := by rw [e1]
  have e1b : (_transmit_new_packets cfg O (sched b) (stateB cfg sched b)).2
      = min (b + cfg.N) cfg.total_packets - min (b - 1 + cfg.N) cfg.total_packets := by
    rw [e1]
  have e3 := fun (L : ℚ) => hdr_phase cfg O sched b L hO hN hbT
  have e3a : ∀ L : ℚ, (_handle_data_reception cfg O
      { base_seq := b,
        next_seq_num := min (b + cfg.N) cfg.total_packets,
        packet_timers := (List.range' b (min (b + cfg.N) cfg.total_packets - b)).map
          (fun q => (q, sched (sendTick cfg.N q))),
        ack_received := Finset.range b,
        transmission_count := min (b + cfg.N) cfg.total_packets,
        last_ack_time := L,
        packet_retries := (List.range' b (min (b + cfg.N) cfg.total_packets - b)).map
          (fun q => (q, 1)),
        expected_seq := b,
        receiver_window := ∅,
        data_channel := List.range' b (min (b + cfg.N) cfg.total_packets - b),
        ack_channel := [],
        finished := false,
        rng := min (b + cfg.N) cfg.total_packets + b }).1
      = { base_seq := b,
          next_seq_num := min (b + cfg.N) cfg.total_packets,
          packet_timers := (List.range' b (min (b + cfg.N) cfg.total_packets - b)).map
            (fun q => (q, sched (sendTick cfg.N q))),
          ack_received := Finset.range b,
          transmission_count := min (b + cfg.N) cfg.total_packets,
          last_ack_time := L,
          packet_retries := (List.range' b (min (b + cfg.N) cfg.total_packets - b)).map
            (fun q => (q, 1)),
          expected_seq := b + 1,
          receiver_window := ∅,
          data_channel := List.range' (b + 1)
            (min (b + cfg.N) cfg.total_packets - (b + 1)),
          ack_channel := [b],
          finished := false,
          rng := min (b + cfg.N) cfg.total_packets + b + 1 } := by
    intro L
    rw [e3 L]
  have e3b : ∀ L : ℚ, (_handle_data_reception cfg O
      { base_seq := b,
        next_seq_num := min (b + cfg.N) cfg.total_packets,
        packet_timers := (List.range' b (min (b + cfg.N) cfg.total_packets - b)).map
          (fun q => (q, sched (sendTick cfg.N q))),
        ack_received := Finset.range b,
        transmission_count := min (b + cfg.N) cfg.total_packets,
        last_ack_time := L,
        packet_retries := (List.range' b (min (b + cfg.N) cfg.total_packets - b)).map
          (fun q => (q, 1)),
        expected_seq := b,
        receiver_window := ∅,
        data_channel := List.range' b (min (b + cfg.N) cfg.total_packets - b),
        ack_channel := [],
        finished := false,
        rng := min (b + cfg.N) cfg.total_packets + b }).2 = [b] := by
    intro L
    rw [e3 L]
  have key : ∀ L : ℚ, _check_timeouts cfg O (sched b)
      (_process_acknowledgments (sched b)
        (_handle_data_reception cfg O
          { base_seq := b,
            next_seq_num := min (b + cfg.N) cfg.total_packets,
            packet_timers := (List.range' b
                (min (b + cfg.N) cfg.total_packets - b)).map
              (fun q => (q, sched (sendTick cfg.N q))),
            ack_received := Finset.range b,
            transmission_count := min (b + cfg.N) cfg.total_packets,
            last_ack_time := L,
            packet_retries := (List.range' b
                (min (b + cfg.N) cfg.total_packets - b)).map
              (fun q => (q, 1)),
            expected_seq := b,
            receiver_window := ∅,
            data_channel := List.range' b (min (b + cfg.N) cfg.total_packets - b),
            ack_channel := [],
            finished := false,
            rng := min (b + cfg.N) cfg.total_packets + b }).1)
      = stateB cfg sched (b + 1) := by
    intro L
    rw [e3a L]
    rw [pak_phase cfg O sched b L hN hb hbT]
    exact cto_phase cfg O sched b hN hbT htm
  apply Prod.ext
  · rw [tick_fst, e0, e1b]
    by_cases hpos : 0 < min (b + cfg.N) cfg.total_packets -
        min (b - 1 + cfg.N) cfg.total_packets
    · rw [if_pos hpos, e1a]
      exact key (sched b)
    · rw [if_neg hpos, e1a]
      exact key (sched (b - 1))
  · rw [tick_snd, e0, e1b]
    by_cases hpos : 0 < min (b + cfg.N) cfg.total_packets -
        min (b - 1 + cfg.N) cfg.total_packets
    · rw [if_pos hpos, e1a]
      exact e3b (sched b)
    · rw [if_neg hpos, e1a]
      exact e3b (sched (b - 1))

/-- First iteration, send phase: the initial window burst transmits packets
`0 .. min N total_packets - 1`. -/
theorem tnp_phase0 (cfg : Cfg) (O : Nat → Bool) (sched : Nat → ℚ)
    (hO : ∀ k, O k = true) (_hN : 1 ≤ cfg.N) (_hT : 1 ≤ cfg.total_packets) :
    _transmit_new_packets cfg O (sched 0) { initState with last_ack_time := sched 0 }
      = ({ base_seq := 0,
           next_seq_num := min (0 + cfg.N) cfg.total_packets,
           packet_timers := (List.range' 0 (min (0 + cfg.N) cfg.total_packets)).map
             (fun q => (q, sched 0)),
           ack_received := ∅,
           transmission_count := min (0 + cfg.N) cfg.total_packets,
           last_ack_time := sched 0,
           packet_retries := (List.range' 0 (min (0 + cfg.N) cfg.total_packets)).map
             (fun q => (q, 1)),
           expected_seq := 0,
           receiver_window := ∅,
           data_channel := List.range' 0 (min (0 + cfg.N) cfg.total_packets),
           ack_channel := [],
           finished := false,
           rng := min (0 + cfg.N) cfg.total_packets },
         min (0 + cfg.N) cfg.total_packets) := by
  have h := tnp_fold_closed O (sched 0) hO (min (0 + cfg.N) cfg.total_packets) 0
    { initState with last_ack_time := sched 0 } 0
    (by intro q h1 h2; show q ∉ (∅ : Finset Nat); exact Finset.not_mem_empty q)
    (by intro q h1 h2; rfl)
    (by intro q h1 h2 p hp; exact absurd hp (List.not_mem_nil p))
  unfold _transmit_new_packets
  show (List.range' 0 (min (0 + cfg.N) cfg.total_packets)).foldl
      (tnpStep O (sched 0)) ({ initState with last_ack_time := sched 0 }, 0) = _
  rw [h]
  rw [Prod.mk.injEq]
  constructor
  · rw [SRPState.mk.injEq]
    refine ⟨rfl, ?_, rfl, rfl, ?_, rfl, rfl, rfl, rfl, rfl, rfl, rfl, ?_⟩
    · show (if min (0 + cfg.N) cfg.total_packets = 0 then 0
          else 0 + min (0 + cfg.N) cfg.total_packets)
        = min (0 + cfg.N) cfg.total_packets
      split <;> omega
    · show 0 + min (0 + cfg.N) cfg.total_packets = min (0 + cfg.N) cfg.total_packets
      omega
    · show 0 + min (0 + cfg.N) cfg.total_packets = min (0 + cfg.N) cfg.total_packets
      omega
  · show 0 + min (0 + cfg.N) cfg.total_packets = min (0 + cfg.N) cfg.total_packets
    omega

/-- First iteration, receive phase: packet `0` arrives, is acknowledged and delivered. -/
theorem hdr_phase0 (cfg : Cfg) (O : Nat → Bool) (sched : Nat → ℚ)
    (hO : ∀ k, O k = true) (hN : 1 ≤ cfg.N) (hT : 1 ≤ cfg.total_packets) :
    _handle_data_reception cfg O
      { base_seq := 0,
        next_seq_num := min (0 + cfg.N) cfg.total_packets,
        packet_timers := (List.range' 0 (min (0 + cfg.N) cfg.total_packets)).map
          (fun q => (q, sched 0)),
        ack_received := ∅,
        transmission_count := min (0 + cfg.N) cfg.total_packets,
        last_ack_time := sched 0,
        packet_retries := (List.range' 0 (min (0 + cfg.N) cfg.total_packets)).map
          (fun q => (q, 1)),
        expected_seq := 0,
        receiver_window := ∅,
        data_channel := List.range' 0 (min (0 + cfg.N) cfg.total_packets),
        ack_channel := [],
        finished := false,
        rng := min (0 + cfg.N) cfg.total_packets }
      = ({ base_seq := 0,
           next_seq_num := min (0 + cfg.N) cfg.total_packets,
           packet_timers := (List.range' 0 (min (0 + cfg.N) cfg.total_packets)).map
             (fun q => (q, sched 0)),
           ack_received := ∅,
           transmission_count := min (0 + cfg.N) cfg.total_packets,
           last_ack_time := sched 0,
           packet_retries := (List.range' 0 (min (0 + cfg.N) cfg.total_packets)).map
             (fun q => (q, 1)),
           expected_seq := 1,
           receiver_window := ∅,
           data_channel := List.range' 1 (min (0 + cfg.N) cfg.total_packets - 1),
           ack_channel := [0],
           finished := false,
           rng := min (0 + cfg.N) cfg.total_packets + 1 }, [0]) := by
  have hdata : List.range' 0 (min (0 + cfg.N) cfg.total_packets)
      = 0 :: List.range' (0 + 1) (min (0 + cfg.N) cfg.total_packets - 1) := by
    conv_lhs => rw [show min (0 + cfg.N) cfg.total_packets
        = (min (0 + cfg.N) cfg.total_packets - 1) + 1 from by omega]
    rw [List.range'_succ]
  simp only [_handle_data_reception, hdata]
  split_ifs with h1 h2
  · exact absurd h2 (Finset.not_mem_empty 0)
  · rw [send_acknowledgment_eq, hO, if_pos rfl]
    rw [insert_emptyc_eq, drain_singleton]
    rfl
  · exfalso
    apply h1
    constructor
    · exact le_rfl
    · omega
  · exfalso
    apply h1
    constructor
    · exact le_rfl
    · omega

/-- First iteration, acknowledgment phase: the acknowledgment for `0` slides the base
to `1`, reaching the steady state `stateB 1`. -/
theorem pak_phase0 (cfg : Cfg) (sched : Nat → ℚ)
    (hN : 1 ≤ cfg.N) (hT : 1 ≤ cfg.total_packets) :
    _process_acknowledgments (sched 0)
      { base_seq := 0,
        next_seq_num := min (0 + cfg.N) cfg.total_packets,
        packet_timers := (List.range' 0 (min (0 + cfg.N) cfg.total_packets)).map
          (fun q => (q, sched 0)),
        ack_received := ∅,
        transmission_count := min (0 + cfg.N) cfg.total_packets,
        last_ack_time := sched 0,
        packet_retries := (List.range' 0 (min (0 + cfg.N) cfg.total_packets)).map
          (fun q => (q, 1)),
        expected_seq := 1,
        receiver_window := ∅,
        data_channel := List.range' 1 (min (0 + cfg.N) cfg.total_packets - 1),
        ack_channel := [0],
        finished := false,
        rng := min (0 + cfg.N) cfg.total_packets + 1 }
      = stateB cfg sched 1 := by
  have hcg0 : (List.range' (0 + 1) (min (0 + cfg.N) cfg.total_packets - 1)).map
      (fun q => ((q, sched 0) : Nat × ℚ))
      = (List.range' (0 + 1) (min (0 + cfg.N) cfg.total_packets - 1)).map
        (fun q => (q, sched (sendTick cfg.N q))) := by
    apply List.map_congr_left
    intro q hq
    rw [List.mem_range'_1] at hq
    have hq2 : sendTick cfg.N q = 0 := by unfold sendTick; omega
    rw [hq2]
  have hdel : (List.range' 0 (min (0 + cfg.N) cfg.total_packets)).map
      (fun q => ((q, sched 0) : Nat × ℚ))
      = (List.range' 0 ((min (0 + cfg.N) cfg.total_packets - 1) + 1)).map
        (fun q => (q, sched 0)) := by
    rw [show (min (0 + cfg.N) cfg.total_packets - 1) + 1
        = min (0 + cfg.N) cfg.total_packets from by omega]
  have hdel2 : (List.range' 0 (min (0 + cfg.N) cfg.total_packets)).map
      (fun q => ((q, 1) : Nat × Nat))
      = (List.range' 0 ((min (0 + cfg.N) cfg.total_packets - 1) + 1)).map
        (fun q => (q, 1)) := by
    rw [show (min (0 + cfg.N) cfg.total_packets - 1) + 1
        = min (0 + cfg.N) cfg.total_packets from by omega]
  simp only [_process_acknowledgments]
  rw [hdel, hdel2, dictDel_map_range'_head, dictDel_map_range'_head]
  rw [show (insert 0 ∅ : Finset Nat) = Finset.range (0 + 1) from by
    rw [insert_emptyc_eq]; exact Finset.range_one.symm]
  rw [slideBase_range]
  rw [if_neg (show ¬ (0 + 1 = 0) from by omega)]
  rw [hcg0]
  rfl

/-- First iteration, timeout phase: all timers were started this very iteration, so
nothing has expired. -/
theorem cto_phase0 (cfg : Cfg) (O : Nat → Bool) (sched : Nat → ℚ)
    (hN : 1 ≤ cfg.N) (_hT : 1 ≤ cfg.total_packets) :
    _check_timeouts cfg O (sched 0) (stateB cfg sched 1) = stateB cfg sched 1 := by
  apply cto_no_expired
  show ∀ p ∈ (List.range' 1 (min (0 + cfg.N) cfg.total_packets - 1)).map
      (fun q => (q, sched (sendTick cfg.N q))),
    ¬ (sched 0 - p.2 > calculate_timeout
        ((List.range' 1 (min (0 + cfg.N) cfg.total_packets - 1)).map
          (fun q => (q, 1))) p.1)
  intro p hp
  obtain ⟨q, hq, rfl⟩ := List.mem_map.1 hp
  rw [List.mem_range'_1] at hq
  rw [not_lt]
  show sched 0 - sched (sendTick cfg.N q) ≤ calculate_timeout
      ((List.range' 1 (min (0 + cfg.N) cfg.total_packets - 1)).map
        (fun q => (q, 1))) q
  unfold calculate_timeout
  rw [dictLookup_map_range']
  rw [if_pos (show 1 ≤ q ∧
      q < 1 + (min (0 + cfg.N) cfg.total_packets - 1) from ⟨hq.1, hq.2⟩)]
  show sched 0 - sched (sendTick cfg.N q) ≤ BASE_TIMEOUT * (7/5) ^ min 1 5
  rw [show sendTick cfg.N q = 0 from by unfold sendTick; omega]
  rw [sub_self]
  norm_num [BASE_TIMEOUT]

/-- The first loss-free loop iteration maps the freshly initialized state to `stateB 1`
and delivers packet `0`. -/
theorem tick_init (cfg : Cfg) (O : Nat → Bool) (sched : Nat → ℚ)
    (hO : ∀ k, O k = true) (hN : 1 ≤ cfg.N) (hT : 1 ≤ cfg.total_packets) :
    tick cfg O (sched 0) { initState with last_ack_time := sched 0 }
      = (stateB cfg sched 1, [0]) := by
  have hstall : ¬ (sched 0 -
      ({ initState with last_ack_time := sched 0 } : SRPState).last_ack_time
        > STALL_LIMIT) := by
    show ¬ (STALL_LIMIT < sched 0 - sched 0)
    rw [sub_self]
    norm_num [STALL_LIMIT]
  have e0 : (if sched 0 -
        ({ initState with last_ack_time := sched 0 } : SRPState).last_ack_time
          > STALL_LIMIT then
        { _recover_from_stall cfg O (sched 0)
            { initState with last_ack_time := sched 0 } with
            last_ack_time := sched 0 }
      else ({ initState with last_ack_time := sched 0 } : SRPState))
      = { initState with last_ack_time := sched 0 } := if_neg hstall
  have e1 := tnp_phase0 cfg O sched hO hN hT
  have e1a : (_transmit_new_packets cfg O (sched 0)
      { initState with last_ack_time := sched 0 }).1
      = { base_seq := 0,
          next_seq_num := min (0 + cfg.N) cfg.total_packets,
          packet_timers := (List.range' 0 (min (0 + cfg.N) cfg.total_packets)).map
            (fun q => (q, sched 0)),
          ack_received := ∅,
          transmission_count := min (0 + cfg.N) cfg.total_packets,
          last_ack_time := sched 0,
          packet_retries := (List.range' 0 (min (0 + cfg.N) cfg.total_packets)).map
            (fun q => (q, 1)),
          expected_seq := 0,
          receiver_window := ∅,
          data_channel := List.range' 0 (min (0 + cfg.N) cfg.total_packets),
          ack_channel := [],
          finished := false,
          rng := min (0 + cfg.N) cfg.total_packets } := by rw [e1]
  have e1b : (_transmit_new_packets cfg O (sched 0)
      { initState with last_ack_time := sched 0 }).2
      = min (0 + cfg.N) cfg.total_packets := by rw [e1]
  have e3 := hdr_phase0 cfg O sched hO hN hT
  have e3a : (_handle_data_reception cfg O
      { base_seq := 0,
        next_seq_num := min (0 + cfg.N) cfg.total_packets,
        packet_timers := (List.range' 0 (min (0 + cfg.N) cfg.total_packets)).map
          (fun q => (q, sched 0)),
        ack_received := ∅,
        transmission_count := min (0 + cfg.N) cfg.total_packets,
        last_ack_time := sched 0,
        packet_retries := (List.range' 0 (min (0 + cfg.N) cfg.total_packets)).map
          (fun q => (q, 1)),
        expected_seq := 0,
        receiver_window := ∅,
        data_channel := List.range' 0 (min (0 + cfg.N) cfg.total_packets),
        ack_channel := [],
        finished := false,
        rng := min (0 + cfg.N) cfg.total_packets }).1
      = { base_seq := 0,
          next_seq_num := min (0 + cfg.N) cfg.total_packets,
          packet_timers := (List.range' 0 (min (0 + cfg.N) cfg.total_packets)).map
            (fun q => (q, sched 0)),
          ack_received := ∅,
          transmission_count := min (0 + cfg.N) cfg.total_packets,
          last_ack_time := sched 0,
          packet_retries := (List.range' 0 (min (0 + cfg.N) cfg.total_packets)).map
            (fun q => (q, 1)),
          expected_seq := 1,
          receiver_window := ∅,
          data_channel := List.range' 1 (min (0 + cfg.N) cfg.total_packets - 1),
          ack_channel := [0],
          finished := false,
          rng := min (0 + cfg.N) cfg.total_packets + 1 } := by rw [e3]
  have e3b : (_handle_data_reception cfg O
      { base_seq := 0,
        next_seq_num := min (0 + cfg.N) cfg.total_packets,
        packet_timers := (List.range' 0 (min (0 + cfg.N) cfg.total_packets)).map
          (fun q => (q, sched 0)),
        ack_received := ∅,
        transmission_count := min (0 + cfg.N) cfg.total_packets,
        last_ack_time := sched 0,
        packet_retries := (List.range' 0 (min (0 + cfg.N) cfg.total_packets)).map
          (fun q => (q, 1)),
        expected_seq := 0,
        receiver_window := ∅,
        data_channel := List.range' 0 (min (0 + cfg.N) cfg.total_packets),
        ack_channel := [],
        finished := false,
        rng := min (0 + cfg.N) cfg.total_packets }).2 = [0] := by rw [e3]
  have key : _check_timeouts cfg O (sched 0)
      (_process_acknowledgments (sched 0)
        (_handle_data_reception cfg O
          { base_seq := 0,
            next_seq_num := min (0 + cfg.N) cfg.total_packets,
            packet_timers := (List.range' 0 (min (0 + cfg.N) cfg.total_packets)).map
              (fun q => (q, sched 0)),
            ack_received := ∅,
            transmission_count := min (0 + cfg.N) cfg.total_packets,
            last_ack_time := sched 0,
            packet_retries := (List.range' 0 (min (0 + cfg.N) cfg.total_packets)).map
              (fun q => (q, 1)),
            expected_seq := 0,
            receiver_window := ∅,
            data_channel := List.range' 0 (min (0 + cfg.N) cfg.total_packets),
            ack_channel := [],
            finished := false,
            rng := min (0 + cfg.N) cfg.total_packets }).1)
      = stateB cfg sched 1 := by
    rw [e3a]
    rw [pak_phase0 cfg sched hN hT]
    exact cto_phase0 cfg O sched hN hT
  apply Prod.ext
  · rw [tick_fst, e0, e1b]
    rw [if_pos (show 0 < min (0 + cfg.N) cfg.total_packets from by omega)]
    rw [e1a]
    exact key
  · rw [tick_snd, e0, e1b]
    rw [if_pos (show 0 < min (0 + cfg.N) cfg.total_packets from by omega)]
    rw [e1a]
    exact e3b

/-- In a loss-free run obeying the stall, timer and deadline bounds, the state at the
start of loop iteration `b`, for `1 ≤ b ≤ total_packets`, is the closed form `stateB b`. -/
theorem trace_steadyState (cfg : Cfg) (O : Nat → Bool) (sched : Nat → ℚ)
    (hO : ∀ k, O k = true) (hN : 1 ≤ cfg.N) (hT : 1 ≤ cfg.total_packets)
    (hst : ∀ k, sched (k + 1) - sched k ≤ STALL_LIMIT)
    (htm : ∀ i j, i ≤ j → j - i ≤ cfg.N - 1 →
      sched j - sched i ≤ BASE_TIMEOUT * (7/5))
    (hdl : ∀ k, k < cfg.total_packets → sched k - sched 0 < 25) :
    ∀ b, 1 ≤ b → b ≤ cfg.total_packets →
      trace cfg O sched b = stateB cfg sched b := by
  intro b
  induction b with
  | zero => intro h1 _; omega
  | succ b ih =>
    intro _ hbT
    by_cases hb1 : b = 0
    · subst hb1
      rw [trace_succ]
      rw [if_pos (show loopGuard cfg sched 0 (trace cfg O sched 0) from by
        constructor
        · rw [trace_zero]
          show 0 < cfg.total_packets
          omega
        · exact hdl 0 (by omega))]
      rw [trace_zero]
      rw [tick_init cfg O sched hO hN hT]
    · have hbb : 1 ≤ b := by omega
      have htr : trace cfg O sched b = stateB cfg sched b := ih hbb (by omega)
      rw [trace_succ, htr]
      rw [if_pos (show loopGuard cfg sched b (stateB cfg sched b) from by
        constructor
        · show b < cfg.total_packets
          omega
        · exact hdl b (by omega))]
      have hst' : sched b - sched (b - 1) ≤ STALL_LIMIT := by
        have h := hst (b - 1)
        rwa [show b - 1 + 1 = b from by omega] at h
      rw [tick_steady cfg O sched b hO hN hbb (by omega) hst' htm]

/-- Once the window base has reached `total_packets`, the guarded loop stops changing
the state. -/
theorem trace_stable_base (cfg : Cfg) (O : Nat → Bool) (sched : Nat → ℚ) (j : Nat)
    (hj : cfg.total_packets ≤ (trace cfg O sched j).base_seq) :
    ∀ m, trace cfg O sched (j + m) = trace cfg O sched j := by
  intro m
  induction m with
  | zero => rfl
  | succ m ih =>
    rw [show j + (m + 1) = (j + m) + 1 from rfl, trace_succ, ih]
    rw [if_neg (show ¬ loopGuard cfg sched (j + m) (trace cfg O sched j) from by
      intro hg
      exact absurd hg.1 (by omega))]

/-- C1: in a loss-free run (the oracle delivers every unit) with a positive window and
at least one packet, whose tick schedule keeps consecutive iterations within the stall
limit, keeps every window-sized timer gap within the smallest adaptive timeout
`BASE_TIMEOUT * (7/5)`, and reaches iteration `total_packets` before the 25-second
deadline, the protocol loop terminates with the returned delivered count (the final
base) equal to `total_packets`, the completion flag true, and `transmission_count`
exactly `total_packets`: no packet is ever retransmitted, by timeout or by stall
recovery, when no loss occurs. -/
theorem c1_no_loss (cfg : Cfg) (O : Nat → Bool) (sched : Nat → ℚ) (fuel : Nat)
    (hO : ∀ k, O k = true) (hN : 1 ≤ cfg.N) (hT : 1 ≤ cfg.total_packets)
    (hst : ∀ k, sched (k + 1) - sched k ≤ STALL_LIMIT)
    (htm : ∀ i j, i ≤ j → j - i ≤ cfg.N - 1 →
      sched j - sched i ≤ BASE_TIMEOUT * (7/5))
    (hdl : ∀ k, k < cfg.total_packets → sched k - sched 0 < 25)
    (hfuel : cfg.total_packets ≤ fuel) :
    (execute_protocol cfg O sched fuel).2 = cfg.total_packets ∧
    (execute_protocol cfg O sched fuel).1.finished = true ∧
    (execute_protocol cfg O sched fuel).1.transmission_count = cfg.total_packets := by
  have hTfin : trace cfg O sched cfg.total_packets
      = stateB cfg sched cfg.total_packets :=
    trace_steadyState cfg O sched hO hN hT hst htm hdl cfg.total_packets hT le_rfl
  have hbase : (trace cfg O sched cfg.total_packets).base_seq = cfg.total_packets := by
    rw [hTfin]
    rfl
  have hstab : trace cfg O sched fuel = trace cfg O sched cfg.total_packets := by
    have h := trace_stable_base cfg O sched cfg.total_packets
      (by rw [hbase]) (fuel - cfg.total_packets)
    rwa [show cfg.total_packets + (fuel - cfg.total_packets) = fuel from by omega] at h
  refine ⟨?_, ?_, ?_⟩
  · show (trace cfg O sched fuel).base_seq = cfg.total_packets
    rw [hstab, hbase]
  · show decide (cfg.total_packets ≤ (trace cfg O sched fuel).base_seq) = true
    rw [hstab, hbase]
    simp
  · show (trace cfg O sched fuel).transmission_count = cfg.total_packets
    rw [hstab, hTfin]
    show min (cfg.total_packets - 1 + cfg.N) cfg.total_packets = cfg.total_packets
    omega

/-- C1 (witness): the headline scenario — window 4, 30 packets, one tick every 5 ms,
no loss — returns 30 delivered, completion true, and exactly 30 transmissions. -/
theorem c1_no_loss_witness :
    (execute_protocol ⟨4, 30⟩ (fun _ => true) (fun k => (k : ℚ) * (1/200)) 30).2 = 30 ∧
    (execute_protocol ⟨4, 30⟩ (fun _ => true)
      (fun k => (k : ℚ) * (1/200)) 30).1.finished = true ∧
    (execute_protocol ⟨4, 30⟩ (fun _ => true)
      (fun k => (k : ℚ) * (1/200)) 30).1.transmission_count = 30 :=
  c1_no_loss ⟨4, 30⟩ (fun _ => true) (fun k => (k : ℚ) * (1/200)) 30
    (fun _ => rfl)
    (by decide)
    (by decide)
    (by
      intro k
      show ((k + 1 : ℕ) : ℚ) * (1/200) - (k : ℚ) * (1/200) ≤ STALL_LIMIT
      have h : ((k + 1 : ℕ) : ℚ) = (k : ℚ) + 1 := by push_cast; ring
      rw [h]
      show ((k : ℚ) + 1) * (1/200) - (k : ℚ) * (1/200) ≤ 7/2
      ring_nf
      norm_num)
    (by
      intro i j hij hgap
      have hgap' : j - i ≤ 3 := hgap
      have hj : j ≤ i + 3 := by omega
      have hjq : (j : ℚ) ≤ (i : ℚ) + 3 := by exact_mod_cast hj
      show (j : ℚ) * (1/200) - (i : ℚ) * (1/200) ≤ BASE_TIMEOUT * (7/5)
      show (j : ℚ) * (1/200) - (i : ℚ) * (1/200) ≤ (4/5) * (7/5)
      linarith)
    (by
      intro k hk
      have hk' : k ≤ 29 := by
        have : k < 30 := hk
        omega
      have hkq : (k : ℚ) ≤ 29 := by exact_mod_cast hk'
      show (k : ℚ) * (1/200) - ((0 : ℕ) : ℚ) * (1/200) < 25
      push_cast
      linarith)
    (by decide)
